import Mathlib

/-!
# AndroidLinkAudio: the audio callback pipeline and the stream lifecycle

A shallow embedding of `app/src/main/cpp/AudioEngine.cpp`.

Modelling conventions.

* `double` and `float` quantities (phases, quantum, samples, latency) are exact rationals;
  rounding of IEEE arithmetic is not modelled.
* The sample clock `mSampleTime` is an unbounded integer.
* The one `int32_t` product of the callback (`mBufferSizeSelection * mFramesPerBurst`) wraps
  modulo `2^32`.
* Audio memory is a map from element index to sample; a pointer `audioData + c` is the pair of
  that map and the offset `c`.
* The Link session snapshot, the host time filter, the latency tuner and the device are outside
  the repository: their answers are inputs of the operations that consult them.
* Behaviour that C++ leaves undefined (index past `mOscillators`, a null tuner, an indeterminate
  pointer) is not tracked: the model is total.
-/

namespace LinkAudio

/-! ## Constants -/

/-- The sentinel of `AudioEngine.h` for an automatically tuned buffer size. -/
def kBufferSizeAutomatic : Int := 0

/-- The length of the oscillator array (`AudioEngine.h`). -/
def kMaximumChannelCount : Nat := 2

/-- The channel count the constructor requests (stereo). -/
def kDefaultChannelCount : Int := 2

/-! ## Machine arithmetic -/

/-- Two's complement reduction of an integer to the `int32_t` range. -/
def wrapInt32 (x : Int) : Int := (x + 2 ^ 31) % 2 ^ 32 - 2 ^ 31

/-- The `int32_t` product `a * b`. -/
def mulInt32 (a b : Int) : Int := wrapInt32 (a * b)

/-- The C library `llround`: nearest integer, halfway cases away from zero. -/
def llround (x : ℚ) : Int := if 0 ≤ x then ⌊x + 1 / 2⌋ else -⌊-x + 1 / 2⌋

/-- The conversion `static_cast<std::int64_t>(double)`: truncation toward zero. -/
def truncToInt64 (x : ℚ) : Int := if 0 ≤ x then ⌊x⌋ else ⌈x⌉

/-! ## Collaborators -/

/-- The snapshot `ableton::Link::SessionState`, seen through the one query the renderer makes:
`phaseAtTime hostTime quantum`, host time in microseconds. -/
structure SessionState where
  phaseAtTime : Int → ℚ → ℚ

/-- The additive strided write `buffer[i * channelStride] += samples i` for the frames
`i < numFrames`, in increasing order of `i`, with `buffer = audioData + base`. -/
def mixInto (samples : Nat → ℚ) (audioData : Nat → ℚ) (base channelStride numFrames : Nat) :
    Nat → ℚ :=
  (List.range numFrames).foldl
    (fun buf i => Function.update buf (base + i * channelStride)
      (buf (base + i * channelStride) + samples i))
    audioData

/-- Modelled from the spec: the tone generator `SineGenerator` (its header is not among the
sources). It is configured by `setup(frequency, sampleRate, amplitude)` and renders additively
into a strided buffer region. `framesRendered` stands for its running phase. -/
structure SineGenerator where
  frequency : ℚ
  sampleRate : Int
  amplitude : ℚ
  framesRendered : Nat

/-- Modelled from the spec: `SineGenerator::setup(frequency, sampleRate, amplitude)`. -/
def SineGenerator.setup (g : SineGenerator) (frequency : ℚ) (sampleRate : Int) (amplitude : ℚ) :
    SineGenerator :=
  { g with frequency := frequency, sampleRate := sampleRate, amplitude := amplitude }

/-- Modelled from the spec: `SineGenerator::render(buffer, channelStride, numFrames)`, which adds
the generator's next `numFrames` samples into the strided region and advances the generator.
`tone g k` is the `k`-th sample a generator in state `g` emits next; it is a parameter of the
whole development. -/
def SineGenerator.render (tone : SineGenerator → Nat → ℚ) (g : SineGenerator)
    (audioData : Nat → ℚ) (base channelStride numFrames : Nat) : SineGenerator × (Nat → ℚ) :=
  ({ g with framesRendered := g.framesRendered + numFrames },
   mixInto (tone g) audioData base channelStride numFrames)

/-! ## Engine state -/

/-- The members of `AudioEngine` that the modelled functions read or write. `mPlayStream` and
`mLatencyTuner` hold the handle of a device stream, `none` being `nullptr`;
`mRestartingLock` is `true` while the mutex is held. -/
structure AudioEngine where
  mLastBeatPhase : ℚ
  mLastBarPhase : ℚ
  mSampleTime : Int
  mChannelCount : Int
  mQuantum : ℚ
  timeAtLastBar : Int
  mSampleRate : Int
  mFramesPerBurst : Int
  mCurrentOutputLatencyMillis : ℚ
  mBufferSizeSelection : Int
  mIsLatencyDetectionSupported : Bool
  mPlayStream : Option Nat
  mLatencyTuner : Option Nat
  mRestartingLock : Bool
  mOscillators : Nat → SineGenerator

/-- The constructor `AudioEngine::AudioEngine()`. Its argument is the storage the object is
built in: members that neither the constructor body nor a default member initializer sets
(`mPlayStream`, `mSampleRate`, `mFramesPerBurst`, ...) keep the value found there. -/
def AudioEngine.new (raw : AudioEngine) : AudioEngine :=
  { raw with
    mLastBeatPhase := 0
    mLastBarPhase := 0
    mSampleTime := 0
    mChannelCount := kDefaultChannelCount
    mCurrentOutputLatencyMillis := 0
    mBufferSizeSelection := kBufferSizeAutomatic
    mIsLatencyDetectionSupported := false
    mLatencyTuner := none
    mRestartingLock := false }

/-! ## Rendering: `renderBarClick` -/

/-- One `LOGD("BAR PHASE AT TICK: %f, lastBarPhase %f", ...)` line. -/
structure BarLog where
  barPhase : ℚ
  lastBarPhase : ℚ
  deriving DecidableEq

/-- What a render pass reads and writes: the engine, the audio memory and the debug log. -/
structure Rendering where
  engine : AudioEngine
  audioData : Nat → ℚ
  logd : List BarLog

/-- Loop state of `renderBarClick`: the rendering and the local `sampleIndex`. -/
structure ClickLoop where
  rendering : Rendering
  sampleIndex : Nat

/-- The expression
`bufferBeginAtOutput + std::chrono::microseconds(llround(i * microsPerSample))`. -/
def sampleHostTime (bufferBeginAtOutput : Int) (microsPerSample : ℚ) (i : Nat) : Int :=
  bufferBeginAtOutput + llround ((i : ℚ) * microsPerSample)

/-- The test `(barPhase - mLastBarPhase) < -(mQuantum/2)`. -/
def isBarBoundary (barPhase lastBarPhase quantum : ℚ) : Bool :=
  decide (barPhase - lastBarPhase < -(quantum / 2))

/-- The body of the `for` loop of `renderBarClick`, at frame `i`. -/
def renderBarClickStep (base channelStride : Nat) (sessionState : SessionState)
    (bufferBeginAtOutput : Int) (microsPerSample : ℚ) (st : ClickLoop) (i : Nat) : ClickLoop :=
  let e := st.rendering.engine
  let t := sampleHostTime bufferBeginAtOutput microsPerSample i
  let barPhase := sessionState.phaseAtTime t e.mQuantum
  let hit := isBarBoundary barPhase e.mLastBarPhase e.mQuantum
  let sample : ℚ := if hit then 1 else 0
  let buf := st.rendering.audioData
  { rendering :=
      { engine :=
          { e with
            timeAtLastBar := if hit then t else e.timeAtLastBar
            mLastBarPhase := barPhase }
        audioData :=
          Function.update buf (base + st.sampleIndex) (buf (base + st.sampleIndex) + sample)
        logd :=
          if hit then
            st.rendering.logd ++ [{ barPhase := barPhase, lastBarPhase := e.mLastBarPhase }]
          else st.rendering.logd }
    sampleIndex := st.sampleIndex + channelStride }

/-- The function `AudioEngine::renderBarClick(buffer, channelStride, numFrames, sessionState,
bufferBeginAtOutput, microsPerSample)`, with `buffer = audioData + base`. -/
def renderBarClick (base channelStride numFrames : Nat) (sessionState : SessionState)
    (bufferBeginAtOutput : Int) (microsPerSample : ℚ) (r : Rendering) : Rendering :=
  ((List.range numFrames).foldl
    (renderBarClickStep base channelStride sessionState bufferBeginAtOutput microsPerSample)
    { rendering := r, sampleIndex := 0 }).rendering

/-! ## Rendering: `onAudioReady` -/

/-- The two sample encodings `onAudioReady` distinguishes (`oboe::AudioFormat`). -/
inductive AudioFormat
  | Float
  | I16
  deriving DecidableEq

/-- The return type of the data callback (`oboe::DataCallbackResult`). -/
inductive DataCallbackResult
  | Continue
  | Stop
  deriving DecidableEq

/-- The `oboe::AudioStream` handed to the callback, seen through the calls the callback makes.
`granted n` is the buffer size the stream settles on when `n` frames are requested. -/
structure AudioStream where
  bufferSizeInFrames : Int
  channelCount : Nat
  format : AudioFormat
  granted : Int → Int

/-- The call `audioStream->setBufferSizeInFrames(requestedFrames)`. -/
def AudioStream.setBufferSizeInFrames (s : AudioStream) (requestedFrames : Int) : AudioStream :=
  { s with bufferSizeInFrames := s.granted requestedFrames }

/-- Calls the callback makes on its collaborators, in program order. -/
inductive CallbackEvent
  | tune
  | setBufferSizeInFrames (requestedFrames : Int)
  | captureAudioSessionState
  | sampleTimeToHostTime (sampleTime : Int)
  deriving DecidableEq

/-- What the collaborators answer during one callback: the captured session state, the host time
filter (sample time to host time in microseconds) and the resize the latency tuner decides to
request, if any. -/
structure CallbackEnv where
  sessionState : SessionState
  sampleTimeToHostTime : Int → Int
  tunerRequest : Option Int

/-- Everything one `onAudioReady` call leaves behind. -/
structure CallbackOutcome where
  engine : AudioEngine
  audioStream : AudioStream
  audioData : Nat → ℚ
  events : List CallbackEvent
  logd : List BarLog
  result : DataCallbackResult

/-- The call `memset(audioData, 0, sizeof(sample) * count)`. -/
def zeroFill (audioData : Nat → ℚ) (count : Nat) : Nat → ℚ :=
  fun idx => if idx < count then 0 else audioData idx

/-- The expression `1e6 / mSampleRate`. -/
def microsPerSampleOf (sampleRate : Int) : ℚ := 1000000 / (sampleRate : ℚ)

/-- The body of the channel loop of the float path, at channel `i`: the bar click, then the
channel's oscillator, both into `audioData + i` with stride `channelCount`. -/
def renderChannel (tone : SineGenerator → Nat → ℚ) (channelCount numFrames : Nat)
    (sessionState : SessionState) (bufferBeginAtOutput : Int) (microsPerSample : ℚ)
    (r : Rendering) (i : Nat) : Rendering :=
  let r1 := renderBarClick i channelCount numFrames sessionState bufferBeginAtOutput
    microsPerSample r
  let rendered := SineGenerator.render tone (r1.engine.mOscillators i) r1.audioData i
    channelCount numFrames
  { r1 with
    engine := { r1.engine with
                mOscillators := Function.update r1.engine.mOscillators i rendered.1 }
    audioData := rendered.2 }

/-- The buffer-size step at the head of `onAudioReady`: the stream afterwards and the calls
made. -/
def adjustBufferSize (env : CallbackEnv) (e : AudioEngine) (audioStream : AudioStream) :
    AudioStream × List CallbackEvent :=
  let bufferSize := audioStream.bufferSizeInFrames
  if e.mBufferSizeSelection = kBufferSizeAutomatic then
    (match env.tunerRequest with
      | none => audioStream
      | some n => audioStream.setBufferSizeInFrames n,
     [CallbackEvent.tune])
  else if bufferSize ≠ mulInt32 e.mBufferSizeSelection e.mFramesPerBurst then
    (audioStream.setBufferSizeInFrames (mulInt32 e.mBufferSizeSelection e.mFramesPerBurst),
     [CallbackEvent.setBufferSizeInFrames (mulInt32 e.mBufferSizeSelection e.mFramesPerBurst)])
  else
    (audioStream, [])

/-- The callback `AudioEngine::onAudioReady(audioStream, audioData, numFrames)`. -/
def onAudioReady (tone : SineGenerator → Nat → ℚ) (env : CallbackEnv) (e : AudioEngine)
    (audioStream : AudioStream) (audioData : Nat → ℚ) (numFrames : Nat) : CallbackOutcome :=
  let adjusted := adjustBufferSize env e audioStream
  let channelCount := adjusted.1.channelCount
  let sessionState := env.sessionState
  let hostTime := env.sampleTimeToHostTime e.mSampleTime
  let e1 := { e with mSampleTime := e.mSampleTime + numFrames }
  let latencyMs := truncToInt64 e1.mCurrentOutputLatencyMillis
  let latencyMuSec := latencyMs * 1000
  let bufferBeginAtOutput := hostTime + latencyMuSec
  let microsPerSample := microsPerSampleOf e1.mSampleRate
  let events := adjusted.2 ++
    [CallbackEvent.captureAudioSessionState, CallbackEvent.sampleTimeToHostTime e.mSampleTime]
  if adjusted.1.format = AudioFormat.Float then
    let r := (List.range channelCount).foldl
      (renderChannel tone channelCount numFrames sessionState bufferBeginAtOutput
        microsPerSample)
      { engine := e1, audioData := zeroFill audioData (channelCount * numFrames), logd := [] }
    { engine := r.engine, audioStream := adjusted.1, audioData := r.audioData,
      events := events, logd := r.logd, result := DataCallbackResult.Continue }
  else
    { engine := e1, audioStream := adjusted.1,
      audioData := zeroFill audioData (channelCount * numFrames),
      events := events, logd := [], result := DataCallbackResult.Continue }

/-- The resize requests among the calls of a callback. -/
def resizeRequests (events : List CallbackEvent) : List Int :=
  events.filterMap fun ev =>
    match ev with
    | CallbackEvent.setBufferSizeInFrames n => some n
    | _ => none

/-- One callback of a run: the collaborators' answers, the buffer handed in and the frame
count. -/
structure CallbackInput where
  env : CallbackEnv
  audioData : Nat → ℚ
  numFrames : Nat

/-- Successive callbacks on one stream: each callback receives the engine and the stream as the
previous one left them. The result lists the outcomes in order. -/
def runCallbacks (tone : SineGenerator → Nat → ℚ) :
    List CallbackInput → AudioEngine → AudioStream → List CallbackOutcome
  | [], _, _ => []
  | c :: cs, e, st =>
    let out := onAudioReady tone c.env e st c.audioData c.numFrames
    out :: runCallbacks tone cs out.engine out.audioStream

/-! ## Lifecycle -/

/-- The device behind `oboe`: the handle the next opened stream receives and the handles of the
streams that are open. -/
structure Device where
  nextHandle : Nat
  openStreams : List Nat

/-- Requests the engine sends to the device layer. -/
inductive Request
  | openStream
  | setBufferSizeInFrames (handle : Nat) (frames : Int)
  | requestStart (handle : Nat)
  | getTimestamp (handle : Nat)
  | requestStop (handle : Nat)
  | close (handle : Nat)
  deriving DecidableEq

/-- The log lines of the lifecycle functions. -/
inductive LogLine
  | restarting
  | restartIgnored
  | channelMismatch
  | errorStarting
  | failedToCreate
  | errorStopping
  | errorClosing
  deriving DecidableEq

/-- The engine together with the device it talks to and the record of what it requested and
logged. -/
structure System where
  engine : AudioEngine
  device : Device
  requests : List Request
  log : List LogLine
  callbackEvents : List CallbackEvent

/-- What a stream reports once opened, and how it answers `requestStart` and `getTimestamp`. -/
structure StreamProperties where
  sampleRate : Int
  framesPerBurst : Int
  channelCount : Int
  startOk : Bool
  timestampUnimplemented : Bool

/-- The answer of `builder.openStream(&mPlayStream)`: a newly opened stream, or no stream, in
which case `nulled` says whether the call stored `nullptr` in `mPlayStream` or left it as it
was. -/
inductive OpenOutcome
  | opened (p : StreamProperties)
  | failed (nulled : Bool)

/-- The loop of `AudioEngine::prepareOscillators`, at oscillator `i`, with the running
frequency. -/
def prepareOscillatorsStep (sampleRate : Int) (st : ℚ × (Nat → SineGenerator)) (i : Nat) :
    ℚ × (Nat → SineGenerator) :=
  (st.1 + 110, Function.update st.2 i ((st.2 i).setup st.1 sampleRate (2 / 5)))

/-- The function `AudioEngine::prepareOscillators()`. -/
def prepareOscillators (e : AudioEngine) : AudioEngine :=
  { e with
    mOscillators :=
      ((List.range kMaximumChannelCount).foldl (prepareOscillatorsStep e.mSampleRate)
        (440, e.mOscillators)).2 }

/-- The function `AudioEngine::createPlaybackStream()`. -/
def createPlaybackStream (o : OpenOutcome) (s : System) : System :=
  match o with
  | OpenOutcome.failed nulled =>
    { s with
      engine := { s.engine with
                  mPlayStream := if nulled then none else s.engine.mPlayStream }
      requests := s.requests ++ [Request.openStream]
      log := s.log ++ [LogLine.failedToCreate] }
  | OpenOutcome.opened p =>
    let h := s.device.nextHandle
    let e1 := { s.engine with
                mPlayStream := some h
                mSampleRate := p.sampleRate
                mFramesPerBurst := p.framesPerBurst }
    let e2 := prepareOscillators e1
    { s with
      engine := { e2 with
                  mLatencyTuner := some h
                  mIsLatencyDetectionSupported := !p.timestampUnimplemented }
      device := { nextHandle := h + 1, openStreams := h :: s.device.openStreams }
      requests := s.requests ++
        [Request.openStream, Request.setBufferSizeInFrames h p.framesPerBurst,
         Request.requestStart h, Request.getTimestamp h]
      log := s.log ++
        (if p.channelCount ≠ s.engine.mChannelCount then [LogLine.channelMismatch] else []) ++
        (if p.startOk then [] else [LogLine.errorStarting]) }

/-- The function `AudioEngine::closeOutputStream()`. `stopOk` and `closeOk` are the results the
device returns for the stop and the close request; a close that succeeds removes the stream from
the open ones. -/
def closeOutputStream (stopOk closeOk : Bool) (s : System) : System :=
  match s.engine.mPlayStream with
  | none => s
  | some h =>
    { s with
      device := { s.device with
                  openStreams :=
                    if closeOk then s.device.openStreams.filter (fun x => x ≠ h)
                    else s.device.openStreams }
      requests := s.requests ++ [Request.requestStop h, Request.close h]
      log := s.log ++
        (if stopOk then [] else [LogLine.errorStopping]) ++
        (if closeOk then [] else [LogLine.errorClosing]) }

/-- The statement `mRestartingLock.unlock()`. -/
def unlockRestarting (s : System) : System :=
  { s with engine := { s.engine with mRestartingLock := false } }

/-- A successful `mRestartingLock.try_lock()`. -/
def lockRestarting (s : System) : System :=
  { s with engine := { s.engine with mRestartingLock := true } }

/-- The statement `LOGI("Restarting stream")`. -/
def logRestarting (s : System) : System :=
  { s with log := s.log ++ [LogLine.restarting] }

/-- The function `AudioEngine::restartStream()`. -/
def restartStream (stopOk closeOk : Bool) (o : OpenOutcome) (s : System) : System :=
  let s1 := logRestarting s
  if s1.engine.mRestartingLock then
    { s1 with log := s1.log ++ [LogLine.restartIgnored] }
  else
    unlockRestarting
      (createPlaybackStream o (closeOutputStream stopOk closeOk (lockRestarting s1)))

/-- The function `AudioEngine::createStream()`. -/
def createStream (o : OpenOutcome) (s : System) : System :=
  createPlaybackStream o s

/-- What the device answers to one `restartStream` call. -/
structure RestartAnswers where
  stopOk : Bool
  closeOk : Bool
  opening : OpenOutcome

/-- A system around a newly constructed engine: no stream was ever opened, nothing requested. -/
def System.new (raw : AudioEngine) : System :=
  { engine := AudioEngine.new raw
    device := { nextHandle := 0, openStreams := [] }
    requests := []
    log := []
    callbackEvents := [] }

/-- The engine holds the handle of a stream that is open. -/
def holdsOpenStream (s : System) : Bool :=
  match s.engine.mPlayStream with
  | none => false
  | some h => decide (h ∈ s.device.openStreams)

/-- The open requests among a list of requests. -/
def openRequests (rs : List Request) : Nat := rs.count Request.openStream

/-- The value of a phase position `x` reduced into `[0, quantum)`. -/
def wrapPhase (quantum x : ℚ) : ℚ := x - quantum * (⌊x / quantum⌋ : ℚ)

/-! ## Two `restartStream` calls, step by step -/

/-- Two systems that agree on everything but the log. -/
def sameButLog (s t : System) : Prop :=
  s.engine = t.engine ∧ s.device = t.device ∧ s.requests = t.requests ∧
    s.callbackEvents = t.callbackEvents

/-- Where a `restartStream` call stands: before its `LOGI`, before its `try_lock`, before each
of the three statements of the guarded section, returned after the guarded section
(`finished`), or returned from the `else` branch (`abandoned`). -/
inductive RestartPc
  | start
  | tryLock
  | close
  | create
  | unlock
  | finished
  | abandoned
  deriving DecidableEq

/-- The call is inside the guarded section: it holds `mRestartingLock`. -/
def RestartPc.inGuard : RestartPc → Bool
  | RestartPc.close => true
  | RestartPc.create => true
  | RestartPc.unlock => true
  | _ => false

/-- The call's `try_lock` has succeeded. -/
def RestartPc.acquired : RestartPc → Bool
  | RestartPc.close => true
  | RestartPc.create => true
  | RestartPc.unlock => true
  | RestartPc.finished => true
  | _ => false

/-- One statement of `AudioEngine::restartStream()`, executed by a call that stands at `pc`
and receives the device answers `a`. A call that has returned does nothing. -/
def restartStep (a : RestartAnswers) (pc : RestartPc) (s : System) : RestartPc × System :=
  match pc with
  | RestartPc.start => (RestartPc.tryLock, logRestarting s)
  | RestartPc.tryLock =>
    if s.engine.mRestartingLock then
      (RestartPc.abandoned, { s with log := s.log ++ [LogLine.restartIgnored] })
    else
      (RestartPc.close, lockRestarting s)
  | RestartPc.close => (RestartPc.create, closeOutputStream a.stopOk a.closeOk s)
  | RestartPc.create => (RestartPc.unlock, createPlaybackStream a.opening s)
  | RestartPc.unlock => (RestartPc.finished, unlockRestarting s)
  | RestartPc.finished => (RestartPc.finished, s)
  | RestartPc.abandoned => (RestartPc.abandoned, s)

/-- The two threads that call `restartStream`. -/
inductive Caller
  | first
  | second
  deriving DecidableEq

/-- Two `restartStream` calls in flight on one system. -/
structure TwoCalls where
  sys : System
  first : RestartPc
  second : RestartPc

/-- The caller `who` executes its next statement. -/
def stepTwo (a b : RestartAnswers) (c : TwoCalls) (who : Caller) : TwoCalls :=
  match who with
  | Caller.first =>
    { c with sys := (restartStep a c.first c.sys).2, first := (restartStep a c.first c.sys).1 }
  | Caller.second =>
    { c with sys := (restartStep b c.second c.sys).2, second := (restartStep b c.second c.sys).1 }

/-- An interleaving of the statements of two `restartStream` calls: the schedule names, step
by step, the caller that executes its next statement. -/
def runTwo (a b : RestartAnswers) (c : TwoCalls) (schedule : List Caller) : TwoCalls :=
  schedule.foldl (stepTwo a b) c

/-- Both calls about to start on the system `s` with the guard free. -/
def bothStarting (s : System) : TwoCalls :=
  { sys := unlockRestarting s, first := RestartPc.start, second := RestartPc.start }

/-- The number of places where a schedule passes from one caller to the other. -/
def callerSwitches : List Caller → Nat
  | a :: b :: rest => (if a = b then 0 else 1) + callerSwitches (b :: rest)
  | _ => 0

/-- The two calls of a schedule overlap in time: the schedule changes caller at least twice, so
one call starts before the other has returned and returns after the other has started. -/
def callsOverlap (schedule : List Caller) : Bool := decide (2 ≤ callerSwitches schedule)

/-- The system after a call that took the guard on `x` has advanced to `pc`, no other call
stepping in between. -/
def restartProgress (a : RestartAnswers) (pc : RestartPc) (x : System) : System :=
  match pc with
  | RestartPc.close => lockRestarting x
  | RestartPc.create => closeOutputStream a.stopOk a.closeOk (lockRestarting x)
  | RestartPc.unlock =>
    createPlaybackStream a.opening (closeOutputStream a.stopOk a.closeOk (lockRestarting x))
  | RestartPc.finished =>
    unlockRestarting
      (createPlaybackStream a.opening
        (closeOutputStream a.stopOk a.closeOk (lockRestarting x)))
  | _ => x

/-- The invariant of two interleaved calls started on `s0`: the guard is held exactly while one
call is in its guarded section, a call has abandoned only if the other took the guard, and up
to the log the system is what the two calls make of `s0` one after the other, the later one
having taken the guard only once the earlier one had left its guarded section. -/
def Interleaved (a b : RestartAnswers) (s0 : System) (pa pb : RestartPc) (sys : System) :
    Prop :=
  sys.engine.mRestartingLock = (pa.inGuard || pb.inGuard) ∧
  (pa = RestartPc.abandoned → pb.acquired = true) ∧
  (pb = RestartPc.abandoned → pa.acquired = true) ∧
  ((sameButLog sys (restartProgress b pb (restartProgress a pa s0)) ∧
      (pb.acquired = true → pa.inGuard = false)) ∨
    (sameButLog sys (restartProgress a pa (restartProgress b pb s0)) ∧
      (pa.acquired = true → pb.inGuard = false)))

/-- The stop and close requests `closeOutputStream` sends for the handle in `mPlayStream`. -/
def stopAndClose : Option Nat → List Request
  | none => []
  | some h => [Request.requestStop h, Request.close h]

/-- The requests `createPlaybackStream` sends when the device answers `o` and the next stream
gets the handle `h`. -/
def openingRequests : OpenOutcome → Nat → List Request
  | OpenOutcome.failed _, _ => [Request.openStream]
  | OpenOutcome.opened p, h =>
    [Request.openStream, Request.setBufferSizeInFrames h p.framesPerBurst,
     Request.requestStart h, Request.getTimestamp h]

/-- The open streams after a close request for the handle in `mPlayStream` that the device
answers with `closeOk`. -/
def afterClose (closeOk : Bool) (held : Option Nat) (openStreams : List Nat) : List Nat :=
  match held with
  | none => openStreams
  | some h => if closeOk then openStreams.filter (fun x => x ≠ h) else openStreams

/-- The open streams after an open request that the device answers with `o`, the next stream
getting the handle `h`. -/
def afterOpen (o : OpenOutcome) (h : Nat) (openStreams : List Nat) : List Nat :=
  match o with
  | OpenOutcome.failed _ => openStreams
  | OpenOutcome.opened _ => h :: openStreams

/-! ## Closed forms used to state what the renderer does -/

/-- The phase the renderer reads at frame `i` of a pass. -/
def barPhaseAt (sessionState : SessionState) (bufferBeginAtOutput : Int) (microsPerSample : ℚ)
    (quantum : ℚ) (i : Nat) : ℚ :=
  sessionState.phaseAtTime (sampleHostTime bufferBeginAtOutput microsPerSample i) quantum

/-- The phase that precedes frame `i` of a pass with phases `p`: the value of `mLastBarPhase`
on entry for frame `0`, the phase of frame `i - 1` otherwise. -/
def phaseBefore (entry : ℚ) (p : Nat → ℚ) : Nat → ℚ
  | 0 => entry
  | i + 1 => p i

/-- The boundary test applied to frame `i` and the phase before it. -/
def barClick (quantum entry : ℚ) (p : Nat → ℚ) (i : Nat) : Bool :=
  isBarBoundary (p i) (phaseBefore entry p i) quantum

/-- The click sample of frame `i`: `1` at a boundary, `0` elsewhere. -/
def clickSample (quantum entry : ℚ) (p : Nat → ℚ) (i : Nat) : ℚ :=
  if barClick quantum entry p i then 1 else 0

/-- The debug lines of the boundaries among the first `n` frames. -/
def clickLogs (quantum entry : ℚ) (p : Nat → ℚ) (n : Nat) : List BarLog :=
  (List.range n).filterMap fun i =>
    if barClick quantum entry p i then
      some { barPhase := p i, lastBarPhase := phaseBefore entry p i }
    else none

/-- The host time of the last boundary among the first `n` frames, `t0` when there is none. -/
def clickTime (bufferBeginAtOutput : Int) (microsPerSample : ℚ) (quantum entry : ℚ)
    (p : Nat → ℚ) (t0 : Int) : Nat → Int
  | 0 => t0
  | n + 1 =>
    if barClick quantum entry p n then sampleHostTime bufferBeginAtOutput microsPerSample n
    else clickTime bufferBeginAtOutput microsPerSample quantum entry p t0 n

/-! ## Concrete inputs -/

/-- A tone generator at rest. -/
def restingGenerator : SineGenerator :=
  { frequency := 0, sampleRate := 0, amplitude := 0, framesRendered := 0 }

/-- Storage filled with zeros and null pointers. -/
def blankEngine : AudioEngine :=
  { mLastBeatPhase := 0
    mLastBarPhase := 0
    mSampleTime := 0
    mChannelCount := 0
    mQuantum := 0
    timeAtLastBar := 0
    mSampleRate := 0
    mFramesPerBurst := 0
    mCurrentOutputLatencyMillis := 0
    mBufferSizeSelection := 0
    mIsLatencyDetectionSupported := false
    mPlayStream := none
    mLatencyTuner := none
    mRestartingLock := false
    mOscillators := fun _ => restingGenerator }

/-- A newly constructed engine given a quantum and a last bar phase. -/
def engineAt (quantum lastBarPhase : ℚ) : AudioEngine :=
  { AudioEngine.new blankEngine with mQuantum := quantum, mLastBarPhase := lastBarPhase }

/-- A render pass over silent memory with an empty log. -/
def silentRendering (e : AudioEngine) : Rendering :=
  { engine := e, audioData := fun _ => 0, logd := [] }

/-- A session whose phase, at one microsecond per frame from host time `0`, reads
`5, 6, 7, 1, 2, ...`: a ramp that wraps between the frames `2` and `3` of a bar of `8`. -/
def wrappingSession : SessionState :=
  { phaseAtTime := fun t _ => if t < 3 then (t : ℚ) + 5 else (t : ℚ) - 2 }

/-- A session whose phase reads `1, 4, 3, 3, ...`: the ramp `2, 3, 4` with the noise
`-1, +1, -1` laid over it. -/
def jitterSession : SessionState :=
  { phaseAtTime := fun t _ => if t = 0 then 1 else if t = 1 then 4 else 3 }

/-- A session that advances the phase by `quantum * 2 / 48000` for every `125 / 6` microseconds
of host time (one frame at `48000` frames per second), starting from phase `0` at host time
`0`. -/
def scenarioSession : SessionState :=
  { phaseAtTime := fun t quantum =>
      wrapPhase quantum (((llround ((t : ℚ) * 6 / 125) : Int) : ℚ) * (quantum * 2 / 48000)) }

/-- Generators that emit silence. -/
def silentTone : SineGenerator → Nat → ℚ := fun _ _ => 0

/-- An engine with the buffer size explicitly selected as `2` bursts of `192` frames. -/
def twoBurstEngine : AudioEngine :=
  { AudioEngine.new blankEngine with
    mBufferSizeSelection := 2
    mFramesPerBurst := 192
    mSampleRate := 48000
    mQuantum := 4 }

/-- A stereo float stream whose buffer holds one burst of `192` frames, as
`createPlaybackStream` leaves it, and which grants every size requested. -/
def oneBurstStream : AudioStream :=
  { bufferSizeInFrames := 192, channelCount := 2, format := AudioFormat.Float,
    granted := fun n => n }

/-- A callback of `192` frames over silent memory, with a session that stays at phase `0`. -/
def burstCallback : CallbackInput :=
  { env := { sessionState := { phaseAtTime := fun _ _ => 0 },
             sampleTimeToHostTime := fun t => t, tunerRequest := none }
    audioData := fun _ => 0
    numFrames := 192 }

/-- A stereo stream at `48000` frames per second with bursts of `192` frames, which starts. -/
def stereoStream : StreamProperties :=
  { sampleRate := 48000, framesPerBurst := 192, channelCount := 2, startOk := true,
    timestampUnimplemented := false }

/-- The same stream, except that its `requestStart` reports an error. -/
def stalledStream : StreamProperties :=
  { stereoStream with startOk := false }

/-- A newly constructed engine after one successful `createStream`: stream `0` is open and
held. -/
def playingSystem : System :=
  createStream (OpenOutcome.opened stereoStream) (System.new blankEngine)

/-- A newly constructed engine at `48000` frames per second with a bar of `8` whose last bar
phase is `7`: the previous callback ended just before the bar line. -/
def beforeBarEngine : AudioEngine :=
  { AudioEngine.new blankEngine with mQuantum := 8, mLastBarPhase := 7, mSampleRate := 48000 }

/-- Collaborators for a callback that starts at host time `0`, where the phase reads `1`: the
bar line was crossed between the previous callback and this one. -/
def afterBarEnv : CallbackEnv :=
  { sessionState := { phaseAtTime := fun _ _ => 1 }, sampleTimeToHostTime := fun t => t,
    tunerRequest := none }

/-- A stereo float stream. -/
def stereoFloatStream : AudioStream :=
  { bufferSizeInFrames := 192, channelCount := 2, format := AudioFormat.Float,
    granted := fun n => n }

/-- Device answers of a restart whose stop, close, open and start all succeed. -/
def smoothRestart : RestartAnswers :=
  { stopOk := true, closeOk := true, opening := OpenOutcome.opened stereoStream }

/-- A schedule in which the second call logs while the first is between its close and its
open, and tries the guard only after the first call has released it. -/
def lateTrySchedule : List Caller :=
  [Caller.first, Caller.first, Caller.first, Caller.second, Caller.first, Caller.first,
   Caller.second, Caller.second, Caller.second, Caller.second]

/-- A schedule in which the second call tries the guard while the first call holds it. -/
def earlyTrySchedule : List Caller :=
  [Caller.first, Caller.first, Caller.first, Caller.second, Caller.second, Caller.first,
   Caller.first]

/-! ## The bar click renderer in closed form -/

theorem mixInto_zero (samples : Nat → ℚ) (audioData : Nat → ℚ) (base stride : Nat) :
    mixInto samples audioData base stride 0 = audioData := by
  simp [mixInto]

theorem mixInto_succ (samples : Nat → ℚ) (audioData : Nat → ℚ) (base stride n : Nat) :
    mixInto samples audioData base stride (n + 1) =
      Function.update (mixInto samples audioData base stride n) (base + n * stride)
        (mixInto samples audioData base stride n (base + n * stride) + samples n) := by
  simp [mixInto, List.range_succ, List.foldl_append]

theorem phaseBefore_succ (entry : ℚ) (p : Nat → ℚ) (i : Nat) :
    phaseBefore entry p (i + 1) = p i := rfl

theorem clickLogs_succ (quantum entry : ℚ) (p : Nat → ℚ) (n : Nat) :
    clickLogs quantum entry p (n + 1) =
      clickLogs quantum entry p n ++
        (if barClick quantum entry p n then
          [{ barPhase := p n, lastBarPhase := phaseBefore entry p n }]
        else []) := by
  unfold clickLogs
  rw [List.range_succ, List.filterMap_append]
  by_cases h : barClick quantum entry p n <;> simp [h]

theorem renderBarClick_loop (base stride : Nat) (ss : SessionState) (t0 : Int) (mps : ℚ)
    (r : Rendering) (n : Nat) :
    (List.range n).foldl (renderBarClickStep base stride ss t0 mps)
        { rendering := r, sampleIndex := 0 } =
      { rendering :=
          { engine :=
              { r.engine with
                timeAtLastBar :=
                  clickTime t0 mps r.engine.mQuantum r.engine.mLastBarPhase
                    (barPhaseAt ss t0 mps r.engine.mQuantum) r.engine.timeAtLastBar n
                mLastBarPhase :=
                  phaseBefore r.engine.mLastBarPhase (barPhaseAt ss t0 mps r.engine.mQuantum) n }
            audioData :=
              mixInto (clickSample r.engine.mQuantum r.engine.mLastBarPhase
                (barPhaseAt ss t0 mps r.engine.mQuantum)) r.audioData base stride n
            logd :=
              r.logd ++ clickLogs r.engine.mQuantum r.engine.mLastBarPhase
                (barPhaseAt ss t0 mps r.engine.mQuantum) n }
        sampleIndex := n * stride } := by
  induction n with
  | zero => simp [mixInto_zero, clickTime, phaseBefore, clickLogs]
  | succ n ih =>
    rw [List.range_succ, List.foldl_append, ih]
    simp only [List.foldl_cons, List.foldl_nil, renderBarClickStep, mixInto_succ, clickLogs_succ,
      clickTime, phaseBefore_succ, barClick, clickSample, barPhaseAt]
    split_ifs <;> simp [Nat.succ_mul]

theorem renderBarClick_logd (base stride n : Nat) (ss : SessionState) (t0 : Int) (mps : ℚ)
    (r : Rendering) :
    (renderBarClick base stride n ss t0 mps r).logd =
      r.logd ++ clickLogs r.engine.mQuantum r.engine.mLastBarPhase
        (barPhaseAt ss t0 mps r.engine.mQuantum) n := by
  simp [renderBarClick, renderBarClick_loop]

theorem renderBarClick_audioData (base stride n : Nat) (ss : SessionState) (t0 : Int) (mps : ℚ)
    (r : Rendering) :
    (renderBarClick base stride n ss t0 mps r).audioData =
      mixInto (clickSample r.engine.mQuantum r.engine.mLastBarPhase
        (barPhaseAt ss t0 mps r.engine.mQuantum)) r.audioData base stride n := by
  simp [renderBarClick, renderBarClick_loop]

theorem renderBarClick_engine (base stride n : Nat) (ss : SessionState) (t0 : Int) (mps : ℚ)
    (r : Rendering) :
    (renderBarClick base stride n ss t0 mps r).engine =
      { r.engine with
        timeAtLastBar :=
          clickTime t0 mps r.engine.mQuantum r.engine.mLastBarPhase
            (barPhaseAt ss t0 mps r.engine.mQuantum) r.engine.timeAtLastBar n
        mLastBarPhase :=
          phaseBefore r.engine.mLastBarPhase (barPhaseAt ss t0 mps r.engine.mQuantum) n } := by
  simp [renderBarClick, renderBarClick_loop]

theorem mixInto_off (samples : Nat → ℚ) (audioData : Nat → ℚ) (base stride n idx : Nat)
    (h : ∀ i, i < n → idx ≠ base + i * stride) :
    mixInto samples audioData base stride n idx = audioData idx := by
  induction n with
  | zero => simp [mixInto_zero]
  | succ n ih =>
    rw [mixInto_succ, Function.update_noteq (h n (Nat.lt_succ_self n))]
    exact ih fun i hi => h i (Nat.lt_succ_of_lt hi)

theorem mixInto_at (samples : Nat → ℚ) (audioData : Nat → ℚ) (base stride n j : Nat)
    (hs : 0 < stride) (hj : j < n) :
    mixInto samples audioData base stride n (base + j * stride) =
      audioData (base + j * stride) + samples j := by
  induction n with
  | zero => exact absurd hj (Nat.not_lt_zero j)
  | succ n ih =>
    rw [mixInto_succ]
    rcases Nat.lt_succ_iff_lt_or_eq.mp hj with hlt | heq
    · have hne : base + j * stride ≠ base + n * stride := by
        intro hEq
        have h1 : j * stride = n * stride := Nat.add_left_cancel hEq
        have h2 : j = n := Nat.eq_of_mul_eq_mul_right hs h1
        omega
      rw [Function.update_noteq hne]
      exact ih hlt
    · subst heq
      rw [Function.update_same]
      congr 1
      apply mixInto_off
      intro i hi hEq
      have h1 : j * stride = i * stride := Nat.add_left_cancel hEq
      have h2 : j = i := Nat.eq_of_mul_eq_mul_right hs h1
      omega

theorem mixInto_silent (samples : Nat → ℚ) (audioData : Nat → ℚ) (base stride n : Nat)
    (h : ∀ i, i < n → samples i = 0) :
    mixInto samples audioData base stride n = audioData := by
  induction n with
  | zero => simp [mixInto_zero]
  | succ n ih =>
    rw [mixInto_succ, ih fun i hi => h i (Nat.lt_succ_of_lt hi), h n (Nat.lt_succ_self n)]
    simp

theorem barClick_iff (quantum entry : ℚ) (p : Nat → ℚ) (i : Nat) :
    barClick quantum entry p i = true ↔ p i - phaseBefore entry p i < -(quantum / 2) := by
  simp [barClick, isBarBoundary]

theorem barClick_false_of_le (quantum entry : ℚ) (p : Nat → ℚ) (i : Nat) (hq : 0 < quantum)
    (h : phaseBefore entry p i ≤ p i) : barClick quantum entry p i = false := by
  rw [← Bool.not_eq_true, barClick_iff]
  intro hlt
  linarith

theorem clickLogs_none (quantum entry : ℚ) (p : Nat → ℚ) (n : Nat)
    (h : ∀ i, i < n → barClick quantum entry p i = false) : clickLogs quantum entry p n = [] := by
  induction n with
  | zero => simp [clickLogs]
  | succ n ih =>
    rw [clickLogs_succ, ih fun i hi => h i (Nat.lt_succ_of_lt hi), h n (Nat.lt_succ_self n)]
    simp

theorem clickLogs_one (quantum entry : ℚ) (p : Nat → ℚ) (n w : Nat) (hw : w < n)
    (hit : barClick quantum entry p w = true)
    (h : ∀ i, i < n → i ≠ w → barClick quantum entry p i = false) :
    clickLogs quantum entry p n = [{ barPhase := p w, lastBarPhase := phaseBefore entry p w }] := by
  induction n with
  | zero => exact absurd hw (Nat.not_lt_zero w)
  | succ n ih =>
    rw [clickLogs_succ]
    rcases Nat.lt_succ_iff_lt_or_eq.mp hw with hlt | heq
    · rw [ih hlt fun i hi hne => h i (Nat.lt_succ_of_lt hi) hne,
        h n (Nat.lt_succ_self n) (by omega)]
      simp
    · subst heq
      rw [clickLogs_none quantum entry p w fun i hi => h i (Nat.lt_succ_of_lt hi) (by omega), hit]
      simp

theorem clickTime_none (t0 : Int) (mps quantum entry : ℚ) (p : Nat → ℚ) (tb : Int) (n : Nat)
    (h : ∀ i, i < n → barClick quantum entry p i = false) :
    clickTime t0 mps quantum entry p tb n = tb := by
  induction n with
  | zero => rfl
  | succ n ih =>
    simp [clickTime, h n (Nat.lt_succ_self n), ih fun i hi => h i (Nat.lt_succ_of_lt hi)]

theorem clickTime_one (t0 : Int) (mps quantum entry : ℚ) (p : Nat → ℚ) (tb : Int) (n w : Nat)
    (hw : w < n) (hit : barClick quantum entry p w = true)
    (h : ∀ i, i < n → i ≠ w → barClick quantum entry p i = false) :
    clickTime t0 mps quantum entry p tb n = sampleHostTime t0 mps w := by
  induction n with
  | zero => exact absurd hw (Nat.not_lt_zero w)
  | succ n ih =>
    rcases Nat.lt_succ_iff_lt_or_eq.mp hw with hlt | heq
    · simp [clickTime, h n (Nat.lt_succ_self n) (by omega),
        ih hlt fun i hi hne => h i (Nat.lt_succ_of_lt hi) hne]
    · subst heq
      simp [clickTime, hit]

theorem llround_natCast (i : Nat) : llround (i : ℚ) = i := by
  have h0 : (0 : ℚ) ≤ (i : ℚ) := Nat.cast_nonneg i
  rw [llround, if_pos h0, Int.floor_eq_iff]
  constructor <;> push_cast <;> linarith

theorem sampleHostTime_unit (i : Nat) : sampleHostTime 0 1 i = i := by
  simp [sampleHostTime, llround_natCast]

/-! ## Bar boundary detection -/

/-- C1: for a quantum `> 0` and a pass of `renderBarClick` over `n` frames. If the phases
(the entry `mLastBarPhase` included) are non-decreasing at every frame but the frame `w`, where
the phase goes from `quantum - ε` to `ε` with `ε < quantum / 4`, then exactly one boundary is
detected: one debug line is written, a click of `1` is added at frame `w` and at no other frame,
and `timeAtLastBar` is the host time of frame `w`. If the phases are non-decreasing at every
frame, no boundary is detected: no debug line, the buffer and `timeAtLastBar` are untouched. -/
theorem renderBarClick_wrap_detection (base stride n : Nat) (ss : SessionState) (t0 : Int)
    (mps : ℚ) (r : Rendering) (hq : 0 < r.engine.mQuantum) (hs : 0 < stride) :
    (∀ (w : Nat) (ε : ℚ), w < n → ε < r.engine.mQuantum / 4 →
      phaseBefore r.engine.mLastBarPhase (barPhaseAt ss t0 mps r.engine.mQuantum) w =
        r.engine.mQuantum - ε →
      barPhaseAt ss t0 mps r.engine.mQuantum w = ε →
      (∀ i, i < n → i ≠ w →
        phaseBefore r.engine.mLastBarPhase (barPhaseAt ss t0 mps r.engine.mQuantum) i ≤
          barPhaseAt ss t0 mps r.engine.mQuantum i) →
      (renderBarClick base stride n ss t0 mps r).logd =
          r.logd ++ [{ barPhase := ε, lastBarPhase := r.engine.mQuantum - ε }] ∧
        (∀ i, i < n →
          (renderBarClick base stride n ss t0 mps r).audioData (base + i * stride) =
            r.audioData (base + i * stride) + (if i = w then 1 else 0)) ∧
        (renderBarClick base stride n ss t0 mps r).engine.timeAtLastBar =
          sampleHostTime t0 mps w) ∧
    ((∀ i, i < n →
        phaseBefore r.engine.mLastBarPhase (barPhaseAt ss t0 mps r.engine.mQuantum) i ≤
          barPhaseAt ss t0 mps r.engine.mQuantum i) →
      (renderBarClick base stride n ss t0 mps r).logd = r.logd ∧
        (renderBarClick base stride n ss t0 mps r).audioData = r.audioData ∧
        (renderBarClick base stride n ss t0 mps r).engine.timeAtLastBar =
          r.engine.timeAtLastBar) := by
  constructor
  · intro w ε hw hε hprev hcur hmono
    have hit : barClick r.engine.mQuantum r.engine.mLastBarPhase
        (barPhaseAt ss t0 mps r.engine.mQuantum) w = true := by
      rw [barClick_iff, hprev, hcur]
      linarith
    have hoff : ∀ i, i < n → i ≠ w → barClick r.engine.mQuantum r.engine.mLastBarPhase
        (barPhaseAt ss t0 mps r.engine.mQuantum) i = false :=
      fun i hi hne => barClick_false_of_le _ _ _ i hq (hmono i hi hne)
    refine ⟨?_, ?_, ?_⟩
    · rw [renderBarClick_logd, clickLogs_one _ _ _ n w hw hit hoff, hprev, hcur]
    · intro i hi
      rw [renderBarClick_audioData, mixInto_at _ _ _ _ _ _ hs hi]
      by_cases hiw : i = w
      · subst hiw
        simp [clickSample, hit]
      · simp [clickSample, hoff i hi hiw, hiw]
    · rw [renderBarClick_engine]
      exact clickTime_one _ _ _ _ _ _ n w hw hit hoff
  · intro hmono
    have hoff : ∀ i, i < n → barClick r.engine.mQuantum r.engine.mLastBarPhase
        (barPhaseAt ss t0 mps r.engine.mQuantum) i = false :=
      fun i hi => barClick_false_of_le _ _ _ i hq (hmono i hi)
    refine ⟨?_, ?_, ?_⟩
    · rw [renderBarClick_logd, clickLogs_none _ _ _ n hoff]
      simp
    · rw [renderBarClick_audioData]
      exact mixInto_silent _ _ _ _ _ fun i hi => by simp [clickSample, hoff i hi]
    · rw [renderBarClick_engine]
      exact clickTime_none _ _ _ _ _ _ n hoff

theorem wrappingSession_phase (i : Nat) :
    barPhaseAt wrappingSession 0 1 8 i = if i < 3 then (i : ℚ) + 5 else (i : ℚ) - 2 := by
  simp [barPhaseAt, sampleHostTime_unit, wrappingSession]

/-- Witness of C1: a bar of `8`, entry phase `4`, frame phases `5, 6, 7, 1, 2`; the wrap is at
frame `3` with `ε = 1`. The pass over the first three frames has no wrap. -/
theorem renderBarClick_wrap_detection_witness :
    ((renderBarClick 0 1 5 wrappingSession 0 1 (silentRendering (engineAt 8 4))).logd =
        [{ barPhase := 1, lastBarPhase := 7 }] ∧
      (renderBarClick 0 1 5 wrappingSession 0 1 (silentRendering (engineAt 8 4))).audioData 3 = 1 ∧
      (renderBarClick 0 1 5 wrappingSession 0 1 (silentRendering (engineAt 8 4))).audioData 4 = 0) ∧
    (renderBarClick 0 1 3 wrappingSession 0 1 (silentRendering (engineAt 8 4))).logd = [] := by
  have hq : (0 : ℚ) < (silentRendering (engineAt 8 4)).engine.mQuantum := by
    norm_num [silentRendering, engineAt]
  have h5 := (renderBarClick_wrap_detection 0 1 5 wrappingSession 0 1
    (silentRendering (engineAt 8 4)) hq (by decide)).1 3 1 (by decide)
    (by norm_num [silentRendering, engineAt])
    (by
      simp only [silentRendering, engineAt, phaseBefore, wrappingSession_phase]
      norm_num)
    (by
      simp only [silentRendering, engineAt, wrappingSession_phase]
      norm_num)
    (by
      intro i hi hne
      simp only [silentRendering, engineAt]
      interval_cases i <;>
        first
        | exact absurd rfl hne
        | (simp [phaseBefore, wrappingSession_phase] <;> norm_num))
  have h3 := (renderBarClick_wrap_detection 0 1 3 wrappingSession 0 1
    (silentRendering (engineAt 8 4)) hq (by decide)).2
    (by
      intro i hi
      simp only [silentRendering, engineAt]
      interval_cases i <;> norm_num [phaseBefore, wrappingSession_phase])
  refine ⟨⟨?_, ?_, ?_⟩, ?_⟩
  · have := h5.1
    norm_num [silentRendering, engineAt] at this ⊢
    exact this
  · have := h5.2.1 3 (by decide)
    simpa [silentRendering] using this
  · have := h5.2.1 4 (by decide)
    simpa [silentRendering] using this
  · simpa [silentRendering] using h3.1

/-- C4: for a pass of `renderBarClick` over `n` frames whose phases, the entry `mLastBarPhase`
included, are a non-decreasing ramp plus a noise term of absolute value below `quantum / 4`
(index `0` is the entry phase, index `i + 1` is frame `i`), no boundary is detected: no debug
line is written and the buffer is left as it was. -/
theorem renderBarClick_jitter_tolerance (base stride n : Nat) (ss : SessionState) (t0 : Int)
    (mps : ℚ) (r : Rendering) (ramp noise : Nat → ℚ)
    (hentry : r.engine.mLastBarPhase = ramp 0 + noise 0)
    (hphase : ∀ i, i < n → barPhaseAt ss t0 mps r.engine.mQuantum i = ramp (i + 1) + noise (i + 1))
    (hramp : ∀ i, i < n → ramp i ≤ ramp (i + 1))
    (hnoise : ∀ i, i ≤ n → |noise i| < r.engine.mQuantum / 4) :
    (renderBarClick base stride n ss t0 mps r).logd = r.logd ∧
      (renderBarClick base stride n ss t0 mps r).audioData = r.audioData := by
  have hprev : ∀ i, i ≤ n →
      phaseBefore r.engine.mLastBarPhase (barPhaseAt ss t0 mps r.engine.mQuantum) i =
        ramp i + noise i := by
    intro i hi
    cases i with
    | zero => exact hentry
    | succ j => exact hphase j hi
  have hoff : ∀ i, i < n → barClick r.engine.mQuantum r.engine.mLastBarPhase
      (barPhaseAt ss t0 mps r.engine.mQuantum) i = false := by
    intro i hi
    rw [← Bool.not_eq_true, barClick_iff, hprev i (Nat.le_of_lt hi), hphase i hi]
    have h1 := abs_lt.mp (hnoise i (Nat.le_of_lt hi))
    have h2 := abs_lt.mp (hnoise (i + 1) hi)
    have h3 := hramp i hi
    intro hlt
    linarith [h1.1, h1.2, h2.1, h2.2]
  constructor
  · rw [renderBarClick_logd, clickLogs_none _ _ _ n hoff]
    simp
  · rw [renderBarClick_audioData]
    exact mixInto_silent _ _ _ _ _ fun i hi => by simp [clickSample, hoff i hi]

/-- Witness of C4: a bar of `8`, the ramp `1, 2, 3, 4` with the noise `+1, -1, +1, -1`, that is
the entry phase `2` and the frame phases `1, 4, 3`. -/
theorem renderBarClick_jitter_tolerance_witness :
    (renderBarClick 0 1 3 jitterSession 0 1 (silentRendering (engineAt 8 2))).logd = [] ∧
      (renderBarClick 0 1 3 jitterSession 0 1 (silentRendering (engineAt 8 2))).audioData =
        fun _ => 0 :=
  renderBarClick_jitter_tolerance 0 1 3 jitterSession 0 1 (silentRendering (engineAt 8 2))
    (fun i => (i : ℚ) + 1) (fun i => if i % 2 = 0 then 1 else -1)
    (by norm_num [silentRendering, engineAt])
    (by
      intro i hi
      simp only [silentRendering, engineAt, barPhaseAt, sampleHostTime_unit, jitterSession]
      interval_cases i <;> norm_num)
    (by intro i _; norm_num)
    (by
      intro i _
      simp only [silentRendering, engineAt]
      split_ifs <;> norm_num)

/-! ## Scenario A: a steady ramp -/

theorem wrapPhase_step (quantum step x : ℚ) (hstep : 0 < step) (hhalf : step < quantum / 2) :
    (⌊(x + step) / quantum⌋ = ⌊x / quantum⌋ ∨ ⌊(x + step) / quantum⌋ = ⌊x / quantum⌋ + 1) ∧
    (wrapPhase quantum (x + step) - wrapPhase quantum x < -(quantum / 2) ↔
      ⌊(x + step) / quantum⌋ = ⌊x / quantum⌋ + 1) ∧
    (wrapPhase quantum (x + step) < wrapPhase quantum x ↔
      ⌊(x + step) / quantum⌋ = ⌊x / quantum⌋ + 1) := by
  have hq : 0 < quantum := by linarith
  have ha1 : (⌊x / quantum⌋ : ℚ) ≤ x / quantum := Int.floor_le _
  have ha2 : x / quantum < (⌊x / quantum⌋ : ℚ) + 1 := Int.lt_floor_add_one _
  have hb1 : (⌊(x + step) / quantum⌋ : ℚ) ≤ (x + step) / quantum := Int.floor_le _
  have hb2 : (x + step) / quantum < (⌊(x + step) / quantum⌋ : ℚ) + 1 := Int.lt_floor_add_one _
  have hsplit : (x + step) / quantum = x / quantum + step / quantum := add_div x step quantum
  have hs0 : 0 < step / quantum := div_pos hstep hq
  have hs1 : step / quantum < 1 := by
    rw [div_lt_one hq]
    linarith
  have hlo : ⌊x / quantum⌋ ≤ ⌊(x + step) / quantum⌋ := by
    have h : (⌊x / quantum⌋ : ℚ) < (⌊(x + step) / quantum⌋ : ℚ) + 1 := by linarith
    have h2 : ⌊x / quantum⌋ < ⌊(x + step) / quantum⌋ + 1 := by exact_mod_cast h
    omega
  have hhi : ⌊(x + step) / quantum⌋ ≤ ⌊x / quantum⌋ + 1 := by
    have h : (⌊(x + step) / quantum⌋ : ℚ) < (⌊x / quantum⌋ : ℚ) + 2 := by linarith
    have h2 : ⌊(x + step) / quantum⌋ < ⌊x / quantum⌋ + 2 := by exact_mod_cast h
    omega
  have hcases : ⌊(x + step) / quantum⌋ = ⌊x / quantum⌋ ∨
      ⌊(x + step) / quantum⌋ = ⌊x / quantum⌋ + 1 := by omega
  refine ⟨hcases, ?_, ?_⟩
  · unfold wrapPhase
    rcases hcases with h | h
    · rw [h]
      constructor
      · intro hlt
        linarith
      · intro he
        omega
    · rw [h]
      constructor
      · intro _
        rfl
      · intro _
        push_cast
        linarith
  · unfold wrapPhase
    rcases hcases with h | h
    · rw [h]
      constructor
      · intro hlt
        linarith
      · intro he
        omega
    · rw [h]
      constructor
      · intro _
        rfl
      · intro _
        push_cast
        linarith

theorem steadyRamp_barClick (quantum step x0 entry : ℚ) (p : Nat → ℚ) (n : Nat)
    (hstep : 0 < step) (hhalf : step < quantum / 2)
    (hentry : entry = wrapPhase quantum x0)
    (hphase : ∀ i, i < n → p i = wrapPhase quantum (x0 + ((i : ℚ) + 1) * step))
    (i : Nat) (hi : i < n) :
    (⌊(x0 + ((i : ℚ) + 1) * step) / quantum⌋ = ⌊(x0 + (i : ℚ) * step) / quantum⌋ ∨
      ⌊(x0 + ((i : ℚ) + 1) * step) / quantum⌋ = ⌊(x0 + (i : ℚ) * step) / quantum⌋ + 1) ∧
    (barClick quantum entry p i = true ↔
      ⌊(x0 + ((i : ℚ) + 1) * step) / quantum⌋ = ⌊(x0 + (i : ℚ) * step) / quantum⌋ + 1) ∧
    (p i < phaseBefore entry p i ↔
      ⌊(x0 + ((i : ℚ) + 1) * step) / quantum⌋ = ⌊(x0 + (i : ℚ) * step) / quantum⌋ + 1) := by
  have hprev : phaseBefore entry p i = wrapPhase quantum (x0 + (i : ℚ) * step) := by
    cases i with
    | zero => simp [phaseBefore, hentry]
    | succ j =>
      rw [phaseBefore_succ, hphase j (Nat.lt_of_succ_lt hi)]
      push_cast
      rfl
  have hnext : x0 + ((i : ℚ) + 1) * step = (x0 + (i : ℚ) * step) + step := by ring
  have key := wrapPhase_step quantum step (x0 + (i : ℚ) * step) hstep hhalf
  rw [barClick_iff, hprev, hphase i hi, hnext]
  exact key

theorem steadyRamp_count (quantum step x0 entry : ℚ) (p : Nat → ℚ) (n : Nat)
    (hstep : 0 < step) (hhalf : step < quantum / 2)
    (hentry : entry = wrapPhase quantum x0)
    (hphase : ∀ i, i < n → p i = wrapPhase quantum (x0 + ((i : ℚ) + 1) * step)) :
    ((clickLogs quantum entry p n).length : Int) + ⌊x0 / quantum⌋ =
      ⌊(x0 + (n : ℚ) * step) / quantum⌋ := by
  induction n with
  | zero => simp [clickLogs]
  | succ n ih =>
    have ih2 := ih fun i hi => hphase i (Nat.lt_succ_of_lt hi)
    have key := steadyRamp_barClick quantum step x0 entry p (n + 1) hstep hhalf hentry hphase n
      (Nat.lt_succ_self n)
    rw [clickLogs_succ]
    push_cast
    rcases key.1 with h | h
    · have hoff : barClick quantum entry p n = false := by
        rw [← Bool.not_eq_true, key.2.1]
        omega
      rw [hoff, h]
      simpa using ih2
    · have hit : barClick quantum entry p n = true := key.2.1.mpr h
      rw [hit, h]
      simp only [if_true, List.length_append, List.length_singleton]
      push_cast
      omega

/-- C10 (Scenario A): quantum `4`, `48000` frames per second, a pass of `renderBarClick` over
`48000` frames whose phase advances by `4 * 2 / 48000` per frame modulo `4` from the initial
phase `p0`, the entry `mLastBarPhase` being the phase one frame earlier. Exactly two boundaries
are detected (two debug lines), and the click of `1` goes to exactly the frames at which the
phase is below the phase before it, that is where the ramp wraps through `0`. -/
theorem scenarioA_two_boundaries (base stride : Nat) (ss : SessionState) (t0 : Int)
    (r : Rendering) (p0 : ℚ) (hs : 0 < stride)
    (hq : r.engine.mQuantum = 4)
    (hentry : r.engine.mLastBarPhase = wrapPhase 4 (p0 - 4 * 2 / 48000))
    (hphase : ∀ i, i < 48000 →
      barPhaseAt ss t0 (microsPerSampleOf 48000) 4 i =
        wrapPhase 4 (p0 + (i : ℚ) * (4 * 2 / 48000))) :
    (renderBarClick base stride 48000 ss t0 (microsPerSampleOf 48000) r).logd.length =
        r.logd.length + 2 ∧
      ∀ i, i < 48000 →
        (renderBarClick base stride 48000 ss t0 (microsPerSampleOf 48000) r).audioData
            (base + i * stride) =
          r.audioData (base + i * stride) +
            (if barPhaseAt ss t0 (microsPerSampleOf 48000) 4 i <
                phaseBefore r.engine.mLastBarPhase
                  (barPhaseAt ss t0 (microsPerSampleOf 48000) 4) i
              then 1 else 0) := by
  have hstep : (0 : ℚ) < 4 * 2 / 48000 := by norm_num
  have hhalf : (4 * 2 / 48000 : ℚ) < 4 / 2 := by norm_num
  have hphase2 : ∀ i, i < 48000 →
      barPhaseAt ss t0 (microsPerSampleOf 48000) 4 i =
        wrapPhase 4 ((p0 - 4 * 2 / 48000) + ((i : ℚ) + 1) * (4 * 2 / 48000)) := by
    intro i hi
    rw [hphase i hi]
    congr 1
    ring
  constructor
  · rw [renderBarClick_logd, List.length_append, hq]
    have hc := steadyRamp_count 4 (4 * 2 / 48000) (p0 - 4 * 2 / 48000) r.engine.mLastBarPhase
      (barPhaseAt ss t0 (microsPerSampleOf 48000) 4) 48000 hstep hhalf hentry hphase2
    have hx : (p0 - 4 * 2 / 48000 + ((48000 : Nat) : ℚ) * (4 * 2 / 48000)) / 4 =
        (p0 - 4 * 2 / 48000) / 4 + ((2 : Int) : ℚ) := by
      push_cast
      ring
    rw [hx, Int.floor_add_int] at hc
    omega
  · intro i hi
    rw [renderBarClick_audioData, mixInto_at _ _ _ _ _ _ hs hi, hq]
    have key := steadyRamp_barClick 4 (4 * 2 / 48000) (p0 - 4 * 2 / 48000)
      r.engine.mLastBarPhase (barPhaseAt ss t0 (microsPerSampleOf 48000) 4) 48000 hstep hhalf
      hentry hphase2 i hi
    congr 1
    unfold clickSample
    by_cases hw : barPhaseAt ss t0 (microsPerSampleOf 48000) 4 i <
        phaseBefore r.engine.mLastBarPhase (barPhaseAt ss t0 (microsPerSampleOf 48000) 4) i
    · rw [if_pos hw, if_pos (key.2.1.mpr (key.2.2.mp hw))]
    · rw [if_neg hw]
      have hoff : ¬ barClick 4 r.engine.mLastBarPhase
          (barPhaseAt ss t0 (microsPerSampleOf 48000) 4) i = true :=
        fun hb => hw (key.2.2.mpr (key.2.1.mp hb))
      rw [if_neg hoff]

theorem llround_roundTrip (i : Nat) :
    llround (((llround ((i : ℚ) * microsPerSampleOf 48000) : Int) : ℚ) * 6 / 125) = i := by
  have hm : microsPerSampleOf 48000 = 125 / 6 := by norm_num [microsPerSampleOf]
  have hi0 : (0 : ℚ) ≤ (i : ℚ) := Nat.cast_nonneg i
  have hy0 : (0 : ℚ) ≤ (i : ℚ) * (125 / 6) := by positivity
  have hT : llround ((i : ℚ) * (125 / 6)) = ⌊(i : ℚ) * (125 / 6) + 1 / 2⌋ := by
    rw [llround, if_pos hy0]
  rw [hm, hT]
  have h1 : ((⌊(i : ℚ) * (125 / 6) + 1 / 2⌋ : Int) : ℚ) ≤ (i : ℚ) * (125 / 6) + 1 / 2 :=
    Int.floor_le _
  have h2 : (i : ℚ) * (125 / 6) + 1 / 2 < ((⌊(i : ℚ) * (125 / 6) + 1 / 2⌋ : Int) : ℚ) + 1 :=
    Int.lt_floor_add_one _
  have hz0 : (0 : ℚ) ≤ ((⌊(i : ℚ) * (125 / 6) + 1 / 2⌋ : Int) : ℚ) * 6 / 125 := by
    have : (0 : Int) ≤ ⌊(i : ℚ) * (125 / 6) + 1 / 2⌋ := Int.floor_nonneg.mpr (by linarith)
    have h3 : (0 : ℚ) ≤ ((⌊(i : ℚ) * (125 / 6) + 1 / 2⌋ : Int) : ℚ) := by exact_mod_cast this
    positivity
  rw [llround, if_pos hz0, Int.floor_eq_iff]
  constructor <;> push_cast <;> linarith

theorem scenarioSession_phase (i : Nat) :
    barPhaseAt scenarioSession 0 (microsPerSampleOf 48000) 4 i =
      wrapPhase 4 (0 + (i : ℚ) * (4 * 2 / 48000)) := by
  simp only [barPhaseAt, scenarioSession, sampleHostTime, zero_add, llround_roundTrip]
  push_cast
  rfl

/-- Witness of C10: the initial phase `0`, so that the entry phase is one step short of the
bar. -/
theorem scenarioA_two_boundaries_witness :
    (renderBarClick 0 1 48000 scenarioSession 0 (microsPerSampleOf 48000)
      (silentRendering (engineAt 4 (wrapPhase 4 (0 - 4 * 2 / 48000))))).logd.length = 2 :=
  (scenarioA_two_boundaries 0 1 scenarioSession 0
    (silentRendering (engineAt 4 (wrapPhase 4 (0 - 4 * 2 / 48000)))) 0 (by decide) rfl rfl
    (fun i _ => scenarioSession_phase i)).1

/-! ## The sample clock -/

theorem onAudioReady_events (tone : SineGenerator → Nat → ℚ) (env : CallbackEnv)
    (e : AudioEngine) (audioStream : AudioStream) (audioData : Nat → ℚ) (numFrames : Nat) :
    (onAudioReady tone env e audioStream audioData numFrames).events =
      (adjustBufferSize env e audioStream).2 ++
        [CallbackEvent.captureAudioSessionState,
         CallbackEvent.sampleTimeToHostTime e.mSampleTime] := by
  unfold onAudioReady
  by_cases hf : (adjustBufferSize env e audioStream).1.format = AudioFormat.Float
  · simp only [hf, if_true]
  · simp only [hf, if_false]

theorem restartStream_of_held (stopOk closeOk : Bool) (o : OpenOutcome) (s : System)
    (h : s.engine.mRestartingLock = true) :
    restartStream stopOk closeOk o s =
      { s with log := s.log ++ [LogLine.restarting, LogLine.restartIgnored] } := by
  simp [restartStream, logRestarting, h]

theorem restartStream_of_free (stopOk closeOk : Bool) (o : OpenOutcome) (s : System)
    (h : s.engine.mRestartingLock = false) :
    restartStream stopOk closeOk o s =
      unlockRestarting
        (createPlaybackStream o
          (closeOutputStream stopOk closeOk (lockRestarting (logRestarting s)))) := by
  simp [restartStream, logRestarting, h]

theorem wrapInt32_of_range (x : Int) (h1 : -2 ^ 31 ≤ x) (h2 : x < 2 ^ 31) : wrapInt32 x = x := by
  unfold wrapInt32
  omega

theorem renderChannel_config (tone : SineGenerator → Nat → ℚ) (channelCount numFrames : Nat)
    (ss : SessionState) (t0 : Int) (mps : ℚ) (r : Rendering) (i : Nat) :
    (renderChannel tone channelCount numFrames ss t0 mps r i).engine.mBufferSizeSelection =
        r.engine.mBufferSizeSelection ∧
      (renderChannel tone channelCount numFrames ss t0 mps r i).engine.mFramesPerBurst =
        r.engine.mFramesPerBurst := by
  simp [renderChannel, renderBarClick_engine]

theorem foldl_renderChannel_config (tone : SineGenerator → Nat → ℚ)
    (channelCount numFrames : Nat) (ss : SessionState) (t0 : Int) (mps : ℚ) (l : List Nat)
    (r : Rendering) :
    (l.foldl (renderChannel tone channelCount numFrames ss t0 mps) r).engine.mBufferSizeSelection =
        r.engine.mBufferSizeSelection ∧
      (l.foldl (renderChannel tone channelCount numFrames ss t0 mps) r).engine.mFramesPerBurst =
        r.engine.mFramesPerBurst := by
  induction l generalizing r with
  | nil => exact ⟨rfl, rfl⟩
  | cons c cs ih =>
    rw [List.foldl_cons, (ih _).1, (ih _).2]
    exact renderChannel_config tone channelCount numFrames ss t0 mps r c

theorem onAudioReady_config (tone : SineGenerator → Nat → ℚ) (env : CallbackEnv)
    (e : AudioEngine) (audioStream : AudioStream) (audioData : Nat → ℚ) (numFrames : Nat) :
    (onAudioReady tone env e audioStream audioData numFrames).engine.mBufferSizeSelection =
        e.mBufferSizeSelection ∧
      (onAudioReady tone env e audioStream audioData numFrames).engine.mFramesPerBurst =
        e.mFramesPerBurst := by
  unfold onAudioReady
  by_cases hf : (adjustBufferSize env e audioStream).1.format = AudioFormat.Float
  · simp only [hf, if_true]
    exact foldl_renderChannel_config _ _ _ _ _ _ _ _
  · simp only [hf, if_false, and_self]

theorem onAudioReady_audioStream (tone : SineGenerator → Nat → ℚ) (env : CallbackEnv)
    (e : AudioEngine) (audioStream : AudioStream) (audioData : Nat → ℚ) (numFrames : Nat) :
    (onAudioReady tone env e audioStream audioData numFrames).audioStream =
      (adjustBufferSize env e audioStream).1 := by
  unfold onAudioReady
  by_cases hf : (adjustBufferSize env e audioStream).1.format = AudioFormat.Float
  · simp only [hf, if_true]
  · simp only [hf, if_false]

theorem resizeRequests_append (xs ys : List CallbackEvent) :
    resizeRequests (xs ++ ys) = resizeRequests xs ++ resizeRequests ys := by
  simp [resizeRequests, List.filterMap_append]

theorem onAudioReady_resizeRequests (tone : SineGenerator → Nat → ℚ) (env : CallbackEnv)
    (e : AudioEngine) (audioStream : AudioStream) (audioData : Nat → ℚ) (numFrames : Nat) :
    resizeRequests (onAudioReady tone env e audioStream audioData numFrames).events =
      resizeRequests (adjustBufferSize env e audioStream).2 := by
  rw [onAudioReady_events, resizeRequests_append]
  simp [resizeRequests]

theorem adjustBufferSize_explicit (env : CallbackEnv) (e : AudioEngine) (st : AudioStream)
    (k b : Int) (hk : 0 < k) (hlo : -2 ^ 31 ≤ k * b) (hhi : k * b < 2 ^ 31)
    (hsel : e.mBufferSizeSelection = k) (hb : e.mFramesPerBurst = b)
    (hgrant : st.granted (k * b) = k * b) :
    resizeRequests (adjustBufferSize env e st).2 =
        (if st.bufferSizeInFrames = k * b then [] else [k * b]) ∧
      (adjustBufferSize env e st).1.bufferSizeInFrames = k * b ∧
      (adjustBufferSize env e st).1.granted = st.granted := by
  have hne : ¬ k = kBufferSizeAutomatic := by
    unfold kBufferSizeAutomatic
    omega
  have hmul : mulInt32 k b = k * b := wrapInt32_of_range (k * b) hlo hhi
  unfold adjustBufferSize
  rw [hsel, hb, hmul]
  by_cases hsize : st.bufferSizeInFrames = k * b
  · simp [hne, hsize, resizeRequests]
  · simp [hne, hsize, resizeRequests, AudioStream.setBufferSizeInFrames, hgrant]

theorem runCallbacks_explicit (tone : SineGenerator → Nat → ℚ) (k b : Int)
    (hk : 0 < k) (hlo : -2 ^ 31 ≤ k * b) (hhi : k * b < 2 ^ 31) (cs : List CallbackInput)
    (e : AudioEngine) (st : AudioStream)
    (hsel : e.mBufferSizeSelection = k) (hb : e.mFramesPerBurst = b)
    (hgrant : st.granted (k * b) = k * b) (hsize : st.bufferSizeInFrames = k * b) :
    (runCallbacks tone cs e st).map (fun o => resizeRequests o.events) =
        List.replicate cs.length [] ∧
      ∀ o, o ∈ runCallbacks tone cs e st → o.audioStream.bufferSizeInFrames = k * b := by
  induction cs generalizing e st with
  | nil => simp [runCallbacks]
  | cons c cs ih =>
    have ha := adjustBufferSize_explicit c.env e st k b hk hlo hhi hsel hb hgrant
    have hcfg := onAudioReady_config tone c.env e st c.audioData c.numFrames
    have hst := onAudioReady_audioStream tone c.env e st c.audioData c.numFrames
    have hrec := ih (onAudioReady tone c.env e st c.audioData c.numFrames).engine
      (onAudioReady tone c.env e st c.audioData c.numFrames).audioStream
      (by rw [hcfg.1, hsel]) (by rw [hcfg.2, hb]) (by rw [hst, ha.2.2, hgrant])
      (by rw [hst, ha.2.1])
    constructor
    · simp only [runCallbacks, List.map_cons, List.length_cons, List.replicate_succ]
      rw [hrec.1, onAudioReady_resizeRequests, ha.1, if_pos hsize]
    · intro o ho
      simp only [runCallbacks, List.mem_cons] at ho
      rcases ho with rfl | ho
      · rw [hst, ha.2.1]
      · exact hrec.2 o ho

/-- C7: with the buffer size explicitly selected as `k > 0` bursts of `b` frames (the product
being an `int32_t` value, as every buffer size is) and a stream that grants a request for
`k * b` frames, run any number of successive callbacks on that stream. The first callback
requests `setBufferSizeInFrames(k * b)` exactly once if it finds another size and requests
nothing if it finds `k * b`; every later callback requests no resize; and after every callback
the buffer size of the stream is `k * b`. -/
theorem explicit_bufferSize_resized_once (tone : SineGenerator → Nat → ℚ) (k b : Int)
    (e : AudioEngine) (st : AudioStream) (c : CallbackInput) (cs : List CallbackInput)
    (hk : 0 < k) (hlo : -2 ^ 31 ≤ k * b) (hhi : k * b < 2 ^ 31)
    (hsel : e.mBufferSizeSelection = k) (hb : e.mFramesPerBurst = b)
    (hgrant : st.granted (k * b) = k * b) :
    (runCallbacks tone (c :: cs) e st).map (fun o => resizeRequests o.events) =
        (if st.bufferSizeInFrames = k * b then [] else [k * b]) :: List.replicate cs.length [] ∧
      ∀ o, o ∈ runCallbacks tone (c :: cs) e st → o.audioStream.bufferSizeInFrames = k * b := by
  have ha := adjustBufferSize_explicit c.env e st k b hk hlo hhi hsel hb hgrant
  have hcfg := onAudioReady_config tone c.env e st c.audioData c.numFrames
  have hst := onAudioReady_audioStream tone c.env e st c.audioData c.numFrames
  have hrec := runCallbacks_explicit tone k b hk hlo hhi cs
    (onAudioReady tone c.env e st c.audioData c.numFrames).engine
    (onAudioReady tone c.env e st c.audioData c.numFrames).audioStream
    (by rw [hcfg.1, hsel]) (by rw [hcfg.2, hb]) (by rw [hst, ha.2.2, hgrant])
    (by rw [hst, ha.2.1])
  constructor
  · simp only [runCallbacks, List.map_cons]
    rw [hrec.1, onAudioReady_resizeRequests, ha.1]
  · intro o ho
    simp only [runCallbacks, List.mem_cons] at ho
    rcases ho with rfl | ho
    · rw [hst, ha.2.1]
    · exact hrec.2 o ho

/-- Witness of C7 (Scenario B): `k = 2`, burst `192`, a stream that starts with one burst.
Three callbacks request `384` frames once, in the first of them, and the stream reads `384`
after each. -/
theorem explicit_bufferSize_resized_once_witness :
    (runCallbacks silentTone [burstCallback, burstCallback, burstCallback] twoBurstEngine
        oneBurstStream).map (fun o => resizeRequests o.events) = [[384], [], []] ∧
      (runCallbacks silentTone [burstCallback, burstCallback, burstCallback] twoBurstEngine
        oneBurstStream).map (fun o => o.audioStream.bufferSizeInFrames) = [384, 384, 384] := by
  have h := explicit_bufferSize_resized_once silentTone 2 192 twoBurstEngine oneBurstStream
    burstCallback [burstCallback, burstCallback] (by decide) (by decide) (by decide) rfl rfl rfl
  constructor
  · rw [h.1]
    simp [oneBurstStream]
  · have h2 := h.2
    simp only [runCallbacks, List.mem_cons, List.mem_singleton, List.not_mem_nil, or_false,
      forall_eq_or_imp, forall_eq] at h2
    simp only [runCallbacks, List.map_cons, List.map_nil]
    rw [h2.1, h2.2.1, h2.2.2]
    norm_num

/-! ## Lifecycle -/

/-- C5, at the failing input `createStream; createStream` on a newly constructed engine with
both device opens succeeding: the second call opens stream `1` without closing stream `0`, so
two streams are open, and the engine holds only the second. A `restartStream` after that closes
stream `1` and opens stream `2`: stream `0` stays open and two streams are open again. -/
theorem createStream_twice_two_open :
    (createStream (OpenOutcome.opened stereoStream) playingSystem).device.openStreams = [1, 0] ∧
      (createStream (OpenOutcome.opened stereoStream) playingSystem).engine.mPlayStream =
        some 1 ∧
      (restartStream true true (OpenOutcome.opened stereoStream)
        (createStream (OpenOutcome.opened stereoStream) playingSystem)).device.openStreams =
        [2, 0] := by
  refine ⟨rfl, rfl, ?_⟩
  simp [restartStream, logRestarting, lockRestarting, unlockRestarting, closeOutputStream,
    createStream, createPlaybackStream, playingSystem, System.new, AudioEngine.new,
    prepareOscillators, blankEngine]

/-- C8, at the failing input of a system whose stream `0` is open and held, for every pair of
results of the stop and the close request: after `closeOutputStream` the member `mPlayStream`
still holds the handle `0`, and a second `closeOutputStream` sends a stop and a close request
for that handle again. With both requests succeeding the stream is closed at the device. -/
theorem closeOutputStream_keeps_handle (stopOk closeOk stopAgain closeAgain : Bool) :
    (closeOutputStream stopOk closeOk playingSystem).engine.mPlayStream = some 0 ∧
      (closeOutputStream stopAgain closeAgain
          (closeOutputStream stopOk closeOk playingSystem)).requests =
        (closeOutputStream stopOk closeOk playingSystem).requests ++
          [Request.requestStop 0, Request.close 0] ∧
      (closeOutputStream true true playingSystem).device.openStreams = [] := by
  refine ⟨rfl, ?_, ?_⟩ <;>
    simp [closeOutputStream, playingSystem, createStream, createPlaybackStream, System.new,
      AudioEngine.new, prepareOscillators, blankEngine]

theorem closeOutputStream_sameButLog (stopOk closeOk : Bool) (s t : System)
    (h : sameButLog s t) :
    sameButLog (closeOutputStream stopOk closeOk s) (closeOutputStream stopOk closeOk t) := by
  obtain ⟨he, hd, hr, hc⟩ := h
  unfold closeOutputStream
  rw [he]
  cases t.engine.mPlayStream with
  | none => exact ⟨he, hd, hr, hc⟩
  | some handle => simp [sameButLog, he, hd, hr, hc]

theorem createPlaybackStream_sameButLog (o : OpenOutcome) (s t : System) (h : sameButLog s t) :
    sameButLog (createPlaybackStream o s) (createPlaybackStream o t) := by
  obtain ⟨he, hd, hr, hc⟩ := h
  cases o <;> simp [createPlaybackStream, sameButLog, he, hd, hr, hc]

theorem unlockRestarting_sameButLog (s t : System) (h : sameButLog s t) :
    sameButLog (unlockRestarting s) (unlockRestarting t) := by
  obtain ⟨he, hd, hr, hc⟩ := h
  simp [unlockRestarting, sameButLog, he, hd, hr, hc]

theorem closeOutputStream_lock (stopOk closeOk : Bool) (s : System) :
    (closeOutputStream stopOk closeOk s).engine.mRestartingLock = s.engine.mRestartingLock := by
  unfold closeOutputStream
  cases s.engine.mPlayStream <;> rfl

theorem createPlaybackStream_lock (o : OpenOutcome) (s : System) :
    (createPlaybackStream o s).engine.mRestartingLock = s.engine.mRestartingLock := by
  cases o <;> simp [createPlaybackStream, prepareOscillators]

theorem sameButLog_trans {s t u : System} (h1 : sameButLog s t) (h2 : sameButLog t u) :
    sameButLog s u :=
  ⟨h1.1.trans h2.1, h1.2.1.trans h2.2.1, h1.2.2.1.trans h2.2.2.1, h1.2.2.2.trans h2.2.2.2⟩

theorem closeOutputStream_openRequests (stopOk closeOk : Bool) (s : System) :
    openRequests (closeOutputStream stopOk closeOk s).requests = openRequests s.requests := by
  unfold closeOutputStream
  cases s.engine.mPlayStream <;> simp [openRequests]

theorem createPlaybackStream_openRequests (o : OpenOutcome) (s : System) :
    openRequests (createPlaybackStream o s).requests = openRequests s.requests + 1 := by
  cases o <;> simp [createPlaybackStream, openRequests]

theorem sameButLog_refl (s : System) : sameButLog s s := ⟨rfl, rfl, rfl, rfl⟩

theorem sameButLog_log (s t : System) (l : List LogLine) (h : sameButLog s t) :
    sameButLog { s with log := l } t := h

theorem lockRestarting_sameButLog (s t : System) (h : sameButLog s t) :
    sameButLog (lockRestarting s) (lockRestarting t) := by
  obtain ⟨he, hd, hr, hc⟩ := h
  simp [lockRestarting, sameButLog, he, hd, hr, hc]

theorem inGuard_acquired (pc : RestartPc) (h : pc.inGuard = true) : pc.acquired = true := by
  cases pc <;> first | rfl | exact absurd h (by decide)

theorem restartProgress_of_waiting (a : RestartAnswers) (pc : RestartPc) (x : System)
    (h : pc.acquired = false) : restartProgress a pc x = x := by
  cases pc <;> first | rfl | exact absurd h (by decide)

theorem restartStream_free_lock (stopOk closeOk : Bool) (o : OpenOutcome) (s : System)
    (h : s.engine.mRestartingLock = false) :
    (restartStream stopOk closeOk o s).engine.mRestartingLock = false := by
  rw [restartStream_of_free _ _ _ _ h]
  rfl

theorem restartStream_free_openRequests (stopOk closeOk : Bool) (o : OpenOutcome) (s : System)
    (h : s.engine.mRestartingLock = false) :
    openRequests (restartStream stopOk closeOk o s).requests = openRequests s.requests + 1 := by
  rw [restartStream_of_free _ _ _ _ h]
  show openRequests (createPlaybackStream o _).requests = _
  rw [createPlaybackStream_openRequests, closeOutputStream_openRequests]
  rfl

theorem restartProgress_finished (a : RestartAnswers) (x y : System) (h : sameButLog x y)
    (hy : y.engine.mRestartingLock = false) :
    sameButLog (restartProgress a RestartPc.finished x)
      (restartStream a.stopOk a.closeOk a.opening y) := by
  rw [restartStream_of_free _ _ _ _ hy]
  apply unlockRestarting_sameButLog
  apply createPlaybackStream_sameButLog
  apply closeOutputStream_sameButLog
  apply lockRestarting_sameButLog
  exact sameButLog_trans h (sameButLog_refl y)

theorem interleaved_swap (a b : RestartAnswers) (s0 : System) (pa pb : RestartPc)
    (sys : System) (h : Interleaved a b s0 pa pb sys) : Interleaved b a s0 pb pa sys := by
  obtain ⟨hlock, hab1, hab2, hB⟩ := h
  exact ⟨by rw [hlock, Bool.or_comm], hab2, hab1, hB.symm⟩

theorem interleaved_step (a b : RestartAnswers) (s0 : System) (pa pb : RestartPc)
    (sys : System) (h : Interleaved a b s0 pa pb sys) :
    Interleaved a b s0 (restartStep a pa sys).1 pb (restartStep a pa sys).2 := by
  obtain ⟨hlock, hab1, hab2, hB⟩ := h
  cases pa with
  | start =>
    show Interleaved a b s0 RestartPc.tryLock pb (logRestarting sys)
    refine ⟨hlock, (fun h => by cases h), hab2, ?_⟩
    rcases hB with ⟨hs, hside⟩ | ⟨hs, hside⟩
    · exact Or.inl ⟨hs, hside⟩
    · exact Or.inr ⟨hs, hside⟩
  | tryLock =>
    by_cases hl : sys.engine.mRestartingLock = true
    · have hstep : restartStep a RestartPc.tryLock sys =
          (RestartPc.abandoned, { sys with log := sys.log ++ [LogLine.restartIgnored] }) := by
        simp [restartStep, hl]
      rw [hstep]
      have hpb : pb.inGuard = true := by
        rw [hl] at hlock
        simpa [RestartPc.inGuard] using hlock.symm
      refine ⟨hlock, fun _ => inGuard_acquired pb hpb, hab2, ?_⟩
      rcases hB with ⟨hs, hside⟩ | ⟨hs, hside⟩
      · exact Or.inl ⟨hs, hside⟩
      · exact Or.inr ⟨hs, hside⟩
    · have hstep : restartStep a RestartPc.tryLock sys =
          (RestartPc.close, lockRestarting sys) := by
        simp [restartStep, hl]
      rw [hstep]
      have hfree : sys.engine.mRestartingLock = false := by
        cases hv : sys.engine.mRestartingLock with
        | true => exact absurd hv hl
        | false => rfl
      have hpb : pb.inGuard = false := by
        rw [hfree] at hlock
        simpa [RestartPc.inGuard] using hlock.symm
      have hs : sameButLog sys (restartProgress b pb s0) := by
        rcases hB with ⟨hs, _⟩ | ⟨hs, _⟩
        · exact hs
        · exact hs
      refine ⟨?_, (fun h => by cases h), fun _ => rfl, Or.inr ⟨?_, fun _ => hpb⟩⟩
      · simp [lockRestarting, RestartPc.inGuard]
      · exact lockRestarting_sameButLog _ _ hs
  | close =>
    show Interleaved a b s0 RestartPc.create pb (closeOutputStream a.stopOk a.closeOk sys)
    refine ⟨?_, (fun h => by cases h), fun _ => rfl, ?_⟩
    · rw [closeOutputStream_lock, hlock]
      rfl
    · rcases hB with ⟨hs, hside⟩ | ⟨hs, hside⟩
      · have hw : pb.acquired = false := by
          cases hv : pb.acquired with
          | true => exact absurd (hside hv) (by decide)
          | false => rfl
        rw [restartProgress_of_waiting b pb _ hw] at hs
        refine Or.inl ⟨?_, fun hv => absurd hv (by rw [hw]; decide)⟩
        rw [restartProgress_of_waiting b pb _ hw]
        exact closeOutputStream_sameButLog _ _ _ _ hs
      · exact Or.inr ⟨closeOutputStream_sameButLog _ _ _ _ hs, hside⟩
  | create =>
    show Interleaved a b s0 RestartPc.unlock pb (createPlaybackStream a.opening sys)
    refine ⟨?_, (fun h => by cases h), fun _ => rfl, ?_⟩
    · rw [createPlaybackStream_lock, hlock]
      rfl
    · rcases hB with ⟨hs, hside⟩ | ⟨hs, hside⟩
      · have hw : pb.acquired = false := by
          cases hv : pb.acquired with
          | true => exact absurd (hside hv) (by decide)
          | false => rfl
        rw [restartProgress_of_waiting b pb _ hw] at hs
        refine Or.inl ⟨?_, fun hv => absurd hv (by rw [hw]; decide)⟩
        rw [restartProgress_of_waiting b pb _ hw]
        exact createPlaybackStream_sameButLog _ _ _ hs
      · exact Or.inr ⟨createPlaybackStream_sameButLog _ _ _ hs, hside⟩
  | unlock =>
    show Interleaved a b s0 RestartPc.finished pb (unlockRestarting sys)
    have hpb : pb.inGuard = false := by
      rcases hB with ⟨_, hside⟩ | ⟨_, hside⟩
      · cases hv : pb.inGuard with
        | true => exact absurd (hside (inGuard_acquired pb hv)) (by decide)
        | false => rfl
      · exact hside rfl
    refine ⟨?_, (fun h => by cases h), fun _ => rfl, ?_⟩
    · show (unlockRestarting sys).engine.mRestartingLock =
        (RestartPc.finished.inGuard || pb.inGuard)
      rw [hpb]
      rfl
    · rcases hB with ⟨hs, hside⟩ | ⟨hs, hside⟩
      · have hw : pb.acquired = false := by
          cases hv : pb.acquired with
          | true => exact absurd (hside hv) (by decide)
          | false => rfl
        rw [restartProgress_of_waiting b pb _ hw] at hs
        refine Or.inl ⟨?_, fun _ => rfl⟩
        rw [restartProgress_of_waiting b pb _ hw]
        exact unlockRestarting_sameButLog _ _ hs
      · exact Or.inr ⟨unlockRestarting_sameButLog _ _ hs, fun _ => hpb⟩
  | finished => exact ⟨hlock, hab1, hab2, hB⟩
  | abandoned => exact ⟨hlock, hab1, hab2, hB⟩

theorem interleaved_stepTwo (a b : RestartAnswers) (s0 : System) (c : TwoCalls) (who : Caller)
    (h : Interleaved a b s0 c.first c.second c.sys) :
    Interleaved a b s0 (stepTwo a b c who).first (stepTwo a b c who).second
      (stepTwo a b c who).sys := by
  cases who with
  | first => exact interleaved_step a b s0 c.first c.second c.sys h
  | second =>
    exact interleaved_swap b a s0 _ _ _
      (interleaved_step b a s0 c.second c.first c.sys (interleaved_swap a b s0 _ _ _ h))

theorem interleaved_runTwo (a b : RestartAnswers) (s0 : System) (schedule : List Caller)
    (c : TwoCalls) (h : Interleaved a b s0 c.first c.second c.sys) :
    Interleaved a b s0 (runTwo a b c schedule).first (runTwo a b c schedule).second
      (runTwo a b c schedule).sys := by
  induction schedule generalizing c with
  | nil => exact h
  | cons who rest ih => exact ih (stepTwo a b c who) (interleaved_stepTwo a b s0 c who h)

theorem interleaved_bothStarting (a b : RestartAnswers) (s : System) :
    Interleaved a b (unlockRestarting s) (bothStarting s).first (bothStarting s).second
      (bothStarting s).sys :=
  ⟨rfl, (fun h => by cases h), (fun h => by cases h),
    Or.inl ⟨sameButLog_refl _, (fun h => by cases h)⟩⟩

theorem restartStream_requests_free (stopOk closeOk : Bool) (o : OpenOutcome) (s : System) :
    (restartStream stopOk closeOk o (unlockRestarting s)).requests =
        s.requests ++ stopAndClose s.engine.mPlayStream ++
          openingRequests o s.device.nextHandle ∧
      (restartStream stopOk closeOk o (unlockRestarting s)).device.openStreams =
        afterOpen o s.device.nextHandle
          (afterClose closeOk s.engine.mPlayStream s.device.openStreams) := by
  rw [restartStream_of_free _ _ _ _ rfl]
  cases hp : s.engine.mPlayStream with
  | none =>
    cases o <;>
      simp [unlockRestarting, createPlaybackStream, closeOutputStream, lockRestarting,
        logRestarting, hp, stopAndClose, openingRequests, afterOpen, afterClose,
        prepareOscillators]
  | some h =>
    cases o <;>
      simp [unlockRestarting, createPlaybackStream, closeOutputStream, lockRestarting,
        logRestarting, hp, stopAndClose, openingRequests, afterOpen, afterClose,
        prepareOscillators]

/-- C6 as stated fails: started on a system whose stream `0` is open, with every device
request succeeding, the second call logs while the first call is inside its guarded section,
so the two calls overlap, but it tries the guard only after the first call has released it.
Both calls then run their guarded section: two close and open sequences are executed, one after
the other, and no request is logged as ignored. -/
theorem overlapping_restarts_run_twice :
    callsOverlap lateTrySchedule = true ∧
      (runTwo smoothRestart smoothRestart (bothStarting playingSystem) lateTrySchedule).first =
        RestartPc.finished ∧
      (runTwo smoothRestart smoothRestart (bothStarting playingSystem) lateTrySchedule).second =
        RestartPc.finished ∧
      (runTwo smoothRestart smoothRestart (bothStarting playingSystem)
          lateTrySchedule).sys.requests =
        playingSystem.requests ++
          [Request.requestStop 0, Request.close 0, Request.openStream,
           Request.setBufferSizeInFrames 1 192, Request.requestStart 1, Request.getTimestamp 1,
           Request.requestStop 1, Request.close 1, Request.openStream,
           Request.setBufferSizeInFrames 2 192, Request.requestStart 2,
           Request.getTimestamp 2] ∧
      (runTwo smoothRestart smoothRestart (bothStarting playingSystem)
          lateTrySchedule).sys.log =
        [LogLine.restarting, LogLine.restarting] := by
  refine ⟨by decide, ?_, ?_, ?_, ?_⟩ <;>
    simp [runTwo, stepTwo, restartStep, lateTrySchedule, bothStarting, smoothRestart,
      playingSystem, createStream, createPlaybackStream, closeOutputStream, lockRestarting,
      unlockRestarting, logRestarting, System.new, AudioEngine.new, prepareOscillators,
      blankEngine, stereoStream, kDefaultChannelCount]

/-- C6, amended: `restartStream` on the restart guard, for two calls with the device answers
`a` and `b`. (1) Called while the guard is held, it sends no request, leaves engine and device
as they are and only logs that the request is ignored. (2) Called while the guard is free, it
sends the stop and the close request for the handle it holds, then the requests of one
`createPlaybackStream`, leaves the open streams as that close and that open make them, and
returns with the guard free; statement by statement it is the same as `restartStep` run five
times. (3) A `try_lock` statement abandons the call exactly when the guard is held. (4) In
every interleaving of the statements of the two calls, started with the guard free: if the
second call abandoned, engine, device and requests are those of the first call's restart alone,
with one open request; likewise with the roles exchanged; if both calls finished, they are
those of the two restarts run one after the other, in one of the two orders, with two open
requests; and the two calls never both abandon. -/
theorem restartStream_acquire_or_abandon (a b : RestartAnswers) (s : System) :
    ((restartStream a.stopOk a.closeOk a.opening (lockRestarting s)).engine =
        (lockRestarting s).engine ∧
      (restartStream a.stopOk a.closeOk a.opening (lockRestarting s)).device = s.device ∧
      (restartStream a.stopOk a.closeOk a.opening (lockRestarting s)).requests = s.requests ∧
      (restartStream a.stopOk a.closeOk a.opening (lockRestarting s)).log =
        s.log ++ [LogLine.restarting, LogLine.restartIgnored]) ∧
    ((restartStream a.stopOk a.closeOk a.opening (unlockRestarting s)).requests =
        s.requests ++ stopAndClose s.engine.mPlayStream ++
          openingRequests a.opening s.device.nextHandle ∧
      (restartStream a.stopOk a.closeOk a.opening (unlockRestarting s)).device.openStreams =
        afterOpen a.opening s.device.nextHandle
          (afterClose a.closeOk s.engine.mPlayStream s.device.openStreams) ∧
      (restartStream a.stopOk a.closeOk a.opening (unlockRestarting s)).engine.mRestartingLock =
        false ∧
      (runTwo a b { sys := s, first := RestartPc.start, second := RestartPc.start }
          [Caller.first, Caller.first, Caller.first, Caller.first, Caller.first]).sys =
        restartStream a.stopOk a.closeOk a.opening s) ∧
    ((restartStep b RestartPc.tryLock (lockRestarting s)).1 = RestartPc.abandoned ∧
      (restartStep b RestartPc.tryLock (unlockRestarting s)).1 = RestartPc.close) ∧
    (∀ schedule : List Caller,
      ((runTwo a b (bothStarting s) schedule).first = RestartPc.finished →
        (runTwo a b (bothStarting s) schedule).second = RestartPc.abandoned →
        sameButLog (runTwo a b (bothStarting s) schedule).sys
            (restartStream a.stopOk a.closeOk a.opening (unlockRestarting s)) ∧
          openRequests (runTwo a b (bothStarting s) schedule).sys.requests =
            openRequests s.requests + 1) ∧
      ((runTwo a b (bothStarting s) schedule).first = RestartPc.abandoned →
        (runTwo a b (bothStarting s) schedule).second = RestartPc.finished →
        sameButLog (runTwo a b (bothStarting s) schedule).sys
            (restartStream b.stopOk b.closeOk b.opening (unlockRestarting s)) ∧
          openRequests (runTwo a b (bothStarting s) schedule).sys.requests =
            openRequests s.requests + 1) ∧
      ((runTwo a b (bothStarting s) schedule).first = RestartPc.finished →
        (runTwo a b (bothStarting s) schedule).second = RestartPc.finished →
        (sameButLog (runTwo a b (bothStarting s) schedule).sys
              (restartStream b.stopOk b.closeOk b.opening
                (restartStream a.stopOk a.closeOk a.opening (unlockRestarting s))) ∨
            sameButLog (runTwo a b (bothStarting s) schedule).sys
              (restartStream a.stopOk a.closeOk a.opening
                (restartStream b.stopOk b.closeOk b.opening (unlockRestarting s)))) ∧
          openRequests (runTwo a b (bothStarting s) schedule).sys.requests =
            openRequests s.requests + 2) ∧
      ¬ ((runTwo a b (bothStarting s) schedule).first = RestartPc.abandoned ∧
        (runTwo a b (bothStarting s) schedule).second = RestartPc.abandoned)) := by
  have hfree : (unlockRestarting s).engine.mRestartingLock = false := rfl
  have hheld : (lockRestarting s).engine.mRestartingLock = true := rfl
  have hreq := restartStream_requests_free a.stopOk a.closeOk a.opening s
  have hone : ∀ (c : RestartAnswers),
      openRequests (restartStream c.stopOk c.closeOk c.opening (unlockRestarting s)).requests =
        openRequests s.requests + 1 := fun c =>
    restartStream_free_openRequests _ _ _ _ hfree
  have htwo : ∀ (c d : RestartAnswers),
      openRequests (restartStream d.stopOk d.closeOk d.opening
        (restartStream c.stopOk c.closeOk c.opening (unlockRestarting s))).requests =
        openRequests s.requests + 2 := fun c d => by
    rw [restartStream_free_openRequests _ _ _ _ (restartStream_free_lock _ _ _ _ hfree),
      hone c]
  refine ⟨?_, ⟨hreq.1, hreq.2, restartStream_free_lock _ _ _ _ hfree, ?_⟩, ⟨?_, ?_⟩, ?_⟩
  · rw [restartStream_of_held _ _ _ _ hheld]
    exact ⟨rfl, rfl, rfl, rfl⟩
  · cases hl : s.engine.mRestartingLock with
    | true =>
      rw [restartStream_of_held _ _ _ _ hl]
      simp [runTwo, stepTwo, restartStep, logRestarting, hl]
    | false =>
      rw [restartStream_of_free _ _ _ _ hl]
      simp [runTwo, stepTwo, restartStep, logRestarting, lockRestarting, hl]
  · simp [restartStep, lockRestarting]
  · simp [restartStep, unlockRestarting]
  · intro schedule
    have hinv := interleaved_runTwo a b (unlockRestarting s) schedule (bothStarting s)
      (interleaved_bothStarting a b s)
    obtain ⟨_, hab1, hab2, hB⟩ := hinv
    refine ⟨?_, ?_, ?_, ?_⟩
    · intro h1 h2
      rw [h1, h2] at hB
      have hs : sameButLog (runTwo a b (bothStarting s) schedule).sys
          (restartStream a.stopOk a.closeOk a.opening (unlockRestarting s)) := by
        rcases hB with ⟨hs, _⟩ | ⟨hs, _⟩
        · exact sameButLog_trans hs (restartProgress_finished a _ _ (sameButLog_refl _) hfree)
        · exact sameButLog_trans hs (restartProgress_finished a _ _ (sameButLog_refl _) hfree)
      exact ⟨hs, by rw [hs.2.2.1]; exact hone a⟩
    · intro h1 h2
      rw [h1, h2] at hB
      have hs : sameButLog (runTwo a b (bothStarting s) schedule).sys
          (restartStream b.stopOk b.closeOk b.opening (unlockRestarting s)) := by
        rcases hB with ⟨hs, _⟩ | ⟨hs, _⟩
        · exact sameButLog_trans hs (restartProgress_finished b _ _ (sameButLog_refl _) hfree)
        · exact sameButLog_trans hs (restartProgress_finished b _ _ (sameButLog_refl _) hfree)
      exact ⟨hs, by rw [hs.2.2.1]; exact hone b⟩
    · intro h1 h2
      rw [h1, h2] at hB
      rcases hB with ⟨hs, _⟩ | ⟨hs, _⟩
      · have hs2 := sameButLog_trans hs
          (restartProgress_finished b _ _
            (restartProgress_finished a _ _ (sameButLog_refl _) hfree)
            (restartStream_free_lock _ _ _ _ hfree))
        exact ⟨Or.inl hs2, by rw [hs2.2.2.1]; exact htwo a b⟩
      · have hs2 := sameButLog_trans hs
          (restartProgress_finished a _ _
            (restartProgress_finished b _ _ (sameButLog_refl _) hfree)
            (restartStream_free_lock _ _ _ _ hfree))
        exact ⟨Or.inr hs2, by rw [hs2.2.2.1]; exact htwo b a⟩
    · rintro ⟨h1, h2⟩
      have := hab1 h1
      rw [h2] at this
      exact absurd this (by decide)

/-- Witness of the amended C6: on a system whose stream `0` is open, the second call tries the
guard while the first call holds it and is dropped; what is left is the first call's restart
alone, with one open request more than before. -/
theorem restartStream_acquire_or_abandon_witness :
    (runTwo smoothRestart smoothRestart (bothStarting playingSystem) earlyTrySchedule).second =
        RestartPc.abandoned ∧
      sameButLog (runTwo smoothRestart smoothRestart (bothStarting playingSystem)
          earlyTrySchedule).sys
        (restartStream true true (OpenOutcome.opened stereoStream)
          (unlockRestarting playingSystem)) ∧
      openRequests (runTwo smoothRestart smoothRestart (bothStarting playingSystem)
          earlyTrySchedule).sys.requests = openRequests playingSystem.requests + 1 := by
  have h1 : (runTwo smoothRestart smoothRestart (bothStarting playingSystem)
      earlyTrySchedule).first = RestartPc.finished := by
    simp [runTwo, stepTwo, restartStep, earlyTrySchedule, bothStarting, smoothRestart,
      playingSystem, createStream, createPlaybackStream, closeOutputStream, lockRestarting,
      unlockRestarting, logRestarting, System.new, AudioEngine.new, prepareOscillators,
      blankEngine, stereoStream]
  have h2 : (runTwo smoothRestart smoothRestart (bothStarting playingSystem)
      earlyTrySchedule).second = RestartPc.abandoned := by
    simp [runTwo, stepTwo, restartStep, earlyTrySchedule, bothStarting, smoothRestart,
      playingSystem, createStream, createPlaybackStream, closeOutputStream, lockRestarting,
      unlockRestarting, logRestarting, System.new, AudioEngine.new, prepareOscillators,
      blankEngine, stereoStream]
  have h := ((restartStream_acquire_or_abandon smoothRestart smoothRestart
    playingSystem).2.2.2 earlyTrySchedule).1 h1 h2
  exact ⟨h2, h.1, h.2⟩

/-- C9 as stated fails: on a newly constructed engine, a device open that succeeds followed by
a start request that fails leaves stream `0` open at the device and held in `mPlayStream`. -/
theorem createPlaybackStream_start_failure_holds_stream :
    stalledStream.startOk = false ∧
      (createPlaybackStream (OpenOutcome.opened stalledStream)
        (System.new blankEngine)).device.openStreams = [0] ∧
      (createPlaybackStream (OpenOutcome.opened stalledStream)
        (System.new blankEngine)).engine.mPlayStream = some 0 ∧
      holdsOpenStream (createPlaybackStream (OpenOutcome.opened stalledStream)
        (System.new blankEngine)) = true := by
  refine ⟨rfl, rfl, rfl, ?_⟩
  simp [holdsOpenStream, createPlaybackStream, System.new, prepareOscillators]

/-- C9, amended: `createPlaybackStream` on failure. If the device open fails, no stream is
opened, exactly one open request and no start request is sent, the failure is logged, and an
engine that held no open stream before holds none on return. If the open succeeds and the start
request fails, the failure is logged and nothing is retried (one open request, one start
request), and the stream just opened stays open and held by the engine. -/
theorem createPlaybackStream_on_failure (s : System) :
    (∀ nulled : Bool,
      (createPlaybackStream (OpenOutcome.failed nulled) s).device = s.device ∧
        (createPlaybackStream (OpenOutcome.failed nulled) s).requests =
          s.requests ++ [Request.openStream] ∧
        (createPlaybackStream (OpenOutcome.failed nulled) s).log =
          s.log ++ [LogLine.failedToCreate] ∧
        (holdsOpenStream s = false →
          holdsOpenStream (createPlaybackStream (OpenOutcome.failed nulled) s) = false)) ∧
    (∀ p : StreamProperties, p.startOk = false →
      (createPlaybackStream (OpenOutcome.opened p) s).requests =
          s.requests ++
            [Request.openStream,
             Request.setBufferSizeInFrames s.device.nextHandle p.framesPerBurst,
             Request.requestStart s.device.nextHandle,
             Request.getTimestamp s.device.nextHandle] ∧
        LogLine.errorStarting ∈ (createPlaybackStream (OpenOutcome.opened p) s).log ∧
        (createPlaybackStream (OpenOutcome.opened p) s).engine.mPlayStream =
          some s.device.nextHandle ∧
        (createPlaybackStream (OpenOutcome.opened p) s).device.openStreams =
          s.device.nextHandle :: s.device.openStreams ∧
        holdsOpenStream (createPlaybackStream (OpenOutcome.opened p) s) = true) := by
  constructor
  · intro nulled
    refine ⟨rfl, rfl, rfl, ?_⟩
    intro h
    cases nulled with
    | true => simp [holdsOpenStream, createPlaybackStream]
    | false =>
      have : (createPlaybackStream (OpenOutcome.failed false) s).engine.mPlayStream =
          s.engine.mPlayStream := by simp [createPlaybackStream]
      unfold holdsOpenStream at h ⊢
      rw [this]
      exact h
  · intro p hp
    refine ⟨rfl, ?_, ?_, rfl, ?_⟩
    · simp [createPlaybackStream, hp]
    · simp [createPlaybackStream, prepareOscillators]
    · simp [holdsOpenStream, createPlaybackStream, prepareOscillators]

/-- Witness of the amended C9 on a newly constructed engine: a failed open leaves no stream
held, a failed start leaves stream `0` held. -/
theorem createPlaybackStream_on_failure_witness :
    holdsOpenStream (createPlaybackStream (OpenOutcome.failed true) (System.new blankEngine)) =
        false ∧
      LogLine.errorStarting ∈
        (createPlaybackStream (OpenOutcome.opened stalledStream) (System.new blankEngine)).log :=
  ⟨((createPlaybackStream_on_failure (System.new blankEngine)).1 true).2.2.2 rfl,
   ((createPlaybackStream_on_failure (System.new blankEngine)).2 stalledStream rfl).2.1⟩

/-! ## Mixing in the float path -/

/-- C3, at the failing input of a stereo float callback of one frame whose phase `1` follows the
entry `mLastBarPhase = 7` in a bar of `8`, for every tone: the bar-click renderer alone, from
the entry phase into a zeroed channel, writes a click of `1` at frame `0`; after `onAudioReady`
channel `0` holds that click plus its tone, but channel `1` holds its tone only, because its
click pass starts from the `mLastBarPhase` that the pass of channel `0` left behind. -/
theorem onAudioReady_second_channel_misses_click (tone : SineGenerator → Nat → ℚ)
    (audioData : Nat → ℚ) :
    (renderBarClick 0 1 1 afterBarEnv.sessionState 0 (microsPerSampleOf 48000)
        (silentRendering beforeBarEngine)).audioData 0 = 1 ∧
      (onAudioReady tone afterBarEnv beforeBarEngine stereoFloatStream audioData 1).audioData 0 =
        1 + tone (beforeBarEngine.mOscillators 0) 0 ∧
      (onAudioReady tone afterBarEnv beforeBarEngine stereoFloatStream audioData 1).audioData 1 =
        tone (beforeBarEngine.mOscillators 1) 0 := by
  have hll : llround 0 = 0 := by
    have := llround_natCast 0
    simpa using this
  refine ⟨?_, ?_, ?_⟩
  · simp [renderBarClick, renderBarClickStep, silentRendering, beforeBarEngine,
      AudioEngine.new, afterBarEnv, sampleHostTime, isBarBoundary, hll, List.range_succ]
    norm_num
  · simp [onAudioReady, adjustBufferSize, stereoFloatStream, beforeBarEngine,
      AudioEngine.new, kBufferSizeAutomatic, afterBarEnv, List.range_succ, renderChannel,
      renderBarClick, renderBarClickStep, SineGenerator.render, mixInto, zeroFill,
      sampleHostTime, isBarBoundary, hll, truncToInt64, blankEngine]
    norm_num
  · simp [onAudioReady, adjustBufferSize, stereoFloatStream, beforeBarEngine,
      AudioEngine.new, kBufferSizeAutomatic, afterBarEnv, List.range_succ, renderChannel,
      renderBarClick, renderBarClickStep, SineGenerator.render, mixInto, zeroFill,
      sampleHostTime, isBarBoundary, hll, truncToInt64, blankEngine]
    norm_num

end LinkAudio
